import Mathlib

/-!
Structured errors of package goa (error.go), HTTP response validation, generated decoders

Shallow embedding of `error.go`: the `Error` record, the error classes built by
`NewErrorClass`, `Error.Meta`, `asError` and `MergeErrors`.

Go semantics kept explicit:

* `*Error` values are addresses into a heap (a list of records, the address
  being the index); `&Error{...}` appends a record, a field assignment
  through a pointer overwrites the record at that address.
* The `error` interface holds nil, a `*Error`, or some other error kind of
  which only the text returned by its `Error()` method matters.
* `MetaValues` is `none` for the nil map.  Writing an entry into the nil map
  is a run-time panic, so the operations return `Except Panic _`.
* A record of namespace `Goa` carries the contents of its map.  Where it
  matters that two records may hold the same map object (the grouping of
  merges), namespace `Goa.Shared` keeps the map objects in a heap of their
  own and a record holds an address into it.
-/

namespace Goa

/-- Values of `interface{}` used as metadata keys and values. -/
inductive Value where
  | null
  | bool (b : Bool)
  | int (i : Int)
  | str (s : String)
  deriving DecidableEq, Repr

/-- The text `fmt.Sprintf("%v", k)` produces for a value. -/
def sprintV : Value → String
  | .null => "<nil>"
  | .bool true => "true"
  | .bool false => "false"
  | .int i => toString i
  | .str s => s

/-- A non-nil `map[string]interface{}`: finitely many entries, one per key. -/
abbrev MetaMap := AList (fun _ : String => Value)

/-- The struct `Error` (error.go, lines 64-73). `MetaValues = none` is the nil map. -/
structure Error where
  Code : String
  Status : Int
  Detail : String
  MetaValues : Option MetaMap
  deriving DecidableEq

/-- A value of the Go interface type `error`. -/
inductive GoError where
  | nil
  | ptr (p : Nat)
  | other (msg : String)
  deriving DecidableEq, Repr

/-- Run-time panics the modelled code can raise. -/
inductive Panic where
  | nilDeref
  | nilMapAssign
  deriving DecidableEq, Repr

/-- The heap of `Error` records; a `*Error` is an index into it. -/
abbrev Heap := List Error

/-- Allocation `&Error{...}`: the new record gets the next free address. -/
def alloc (h : Heap) (e : Error) : Nat × Heap := (h.length, h ++ [e])

/-- Reading through a `*Error`; an address outside the heap stands for a nil pointer. -/
def load (h : Heap) (p : Nat) : Except Panic Error :=
  match h[p]? with
  | some e => .ok e
  | none => .error .nilDeref

/-- The entries visited by `range m`; none for the nil map. -/
def rangeOf : Option MetaMap → List (Sigma fun _ : String => Value)
  | none => []
  | some m => m.entries

/-- The statement `e.MetaValues[n] = v` for the record at address `p`. -/
def mapAssign (h : Heap) (p : Nat) (n : String) (v : Value) : Except Panic Heap :=
  match h[p]? with
  | none => .error .nilDeref
  | some e =>
    match e.MetaValues with
    | none => .error .nilMapAssign
    | some m => .ok (h.set p { e with MetaValues := some (m.insert n v) })

/-- The format argument `fm interface{}` of an error class, by the cases of the type switch. -/
inductive Fm where
  | str (s : String)
  | error (msg : String)
  | stringer (s : String)
  | default (v : Value)

/-- The type `ErrorClass`; the heap is threaded because the constructor allocates. -/
abbrev ErrorClass := Heap → Fm → List Value → Nat × Heap

/-- Function `NewErrorClass` (error.go, lines 85-100); `sprintf` is `fmt.Sprintf`. -/
def NewErrorClass (sprintf : String → List Value → String) (code : String) (status : Int) :
    ErrorClass := fun h fm v =>
  let f : String :=
    match fm with
    | .str actual => actual
    | .error msg => msg
    | .stringer s => s
    | .default actual => sprintV actual
  alloc h { Code := code, Status := status, Detail := sprintf f v, MetaValues := none }

def ErrBadRequest (sprintf : String → List Value → String) : ErrorClass :=
  NewErrorClass sprintf "bad_request" 400

def ErrInvalidRequest (sprintf : String → List Value → String) : ErrorClass :=
  NewErrorClass sprintf "invalid_request" 400

def ErrInvalidEncoding (sprintf : String → List Value → String) : ErrorClass :=
  NewErrorClass sprintf "invalid_encoding" 400

def ErrRequestBodyTooLarge (sprintf : String → List Value → String) : ErrorClass :=
  NewErrorClass sprintf "request_too_large" 413

def ErrNoSecurityScheme (sprintf : String → List Value → String) : ErrorClass :=
  NewErrorClass sprintf "no_security_scheme" 500

def ErrInvalidFile (sprintf : String → List Value → String) : ErrorClass :=
  NewErrorClass sprintf "invalid_file" 400

def ErrNotFound (sprintf : String → List Value → String) : ErrorClass :=
  NewErrorClass sprintf "not_found" 404

def ErrInternal (sprintf : String → List Value → String) : ErrorClass :=
  NewErrorClass sprintf "internal" 500

/-- The loop of `Error.Meta` from index `i` on, the list holding `keyvals[i:]`. -/
def metaLoop (h : Heap) (p : Nat) : List Value → Except Panic Heap
  | [] => .ok h
  | [k] => mapAssign h p (sprintV k) (.str "MISSING")
  | k :: v :: rest =>
    match mapAssign h p (sprintV k) v with
    | .ok h1 => metaLoop h1 p rest
    | .error x => .error x

/-- Method `Error.Meta` (error.go, lines 184-194) on the receiver at address `p`. -/
def Error.Meta (h : Heap) (p : Nat) (keyvals : List Value) : Except Panic (Nat × Heap) :=
  match metaLoop h p keyvals with
  | .ok h1 => .ok (p, h1)
  | .error x => .error x

/-- Function `asError` (error.go, lines 238-244). -/
def asError (h : Heap) (err : GoError) : Except Panic (Nat × Heap) :=
  match err with
  | .ptr p => .ok (p, h)
  | .other msg =>
    .ok (alloc h { Status := 500, Code := "internal_error", Detail := msg, MetaValues := none })
  | .nil => .error .nilDeref

/-- The loop `for n, v := range o.MetaValues { e.MetaValues[n] = v }`. -/
def mergeMeta (h : Heap) (pe : Nat) : List (Sigma fun _ : String => Value) → Except Panic Heap
  | [] => .ok h
  | kv :: rest =>
    match mapAssign h pe kv.1 kv.2 with
    | .ok h1 => mergeMeta h1 pe rest
    | .error x => .error x

/-- The `switch` of `MergeErrors` (lines 221-230), writing through `e`. -/
def mergeSwitch (h : Heap) (pe : Nat) (e o : Error) : Heap :=
  if e.Status = 500 ∨ o.Status = 500 then
    if e.Status ≠ 500 then h.set pe { e with Status := 500, Code := "internal_error" } else h
  else if e.Status ≠ o.Status ∨ e.Code ≠ o.Code then
    h.set pe { e with Status := 400, Code := "bad_request" }
  else h

/-- Lines 221-235 of `MergeErrors`, once `e` and `o` are the addresses `pe` and `po`. -/
def mergeBody (h2 : Heap) (pe po : Nat) : Except Panic (GoError × Heap) :=
  match load h2 pe, load h2 po with
  | .error x, _ => .error x
  | _, .error x => .error x
  | .ok e, .ok o =>
  let h3 := mergeSwitch h2 pe e o
  match load h3 pe, load h3 po with
  | .error x, _ => .error x
  | _, .error x => .error x
  | .ok e1, .ok o1 =>
  let h4 := h3.set pe { e1 with Detail := e1.Detail ++ "; " ++ o1.Detail }
  match load h4 po with
  | .error x => .error x
  | .ok o2 =>
  match mergeMeta h4 pe (rangeOf o2.MetaValues) with
  | .error x => .error x
  | .ok h5 => .ok (.ptr pe, h5)

/-- Function `MergeErrors` (error.go, lines 209-236). -/
def MergeErrors (h : Heap) (err other : GoError) : Except Panic (GoError × Heap) :=
  match err, other with
  | .nil, .nil => .ok (.nil, h)
  | .nil, _ =>
    match asError h other with
    | .ok (p, h1) => .ok (.ptr p, h1)
    | .error x => .error x
  | _, .nil =>
    match asError h err with
    | .ok (p, h1) => .ok (.ptr p, h1)
    | .error x => .error x
  | _, _ =>
    match asError h err with
    | .error x => .error x
    | .ok (pe, h1) =>
    match asError h1 other with
    | .error x => .error x
    | .ok (po, h2) => mergeBody h2 pe po

/-- Left-to-right accumulation `acc = MergeErrors(acc, x)` over a list of errors. -/
def accumulate (h : Heap) (acc : GoError) : List GoError → Except Panic (GoError × Heap)
  | [] => .ok (acc, h)
  | x :: rest =>
    match MergeErrors h acc x with
    | .ok (acc1, h1) => accumulate h1 acc1 rest
    | .error x => .error x

/-- The expression `MergeErrors(MergeErrors(a, b), c)`. -/
def mergeLeft (h : Heap) (a b c : GoError) : Except Panic (GoError × Heap) :=
  match MergeErrors h a b with
  | .ok (r, h1) => MergeErrors h1 r c
  | .error x => .error x

/-- The expression `MergeErrors(a, MergeErrors(b, c))`. -/
def mergeRight (h : Heap) (a b c : GoError) : Except Panic (GoError × Heap) :=
  match MergeErrors h b c with
  | .ok (r, h1) => MergeErrors h1 a r
  | .error x => .error x

/-- The record an `error` value stands for once `asError` has converted it. -/
def converted (h : Heap) (err : GoError) : Option Error :=
  match asError h err with
  | .ok (p, h1) => h1[p]?
  | .error _ => none

/-- The record behind the `error` returned by a call, if the call returned a `*Error`. -/
def resultOf : Except Panic (GoError × Heap) → Option Error
  | .ok (.ptr p, h) => h[p]?
  | _ => none

/-- The record behind the pointer an error class returns. -/
def built (r : Nat × Heap) : Option Error := r.2[r.1]?

/-- Metadata lookup in a possibly nil map (`m[k]` with the comma-ok form). -/
def metaGet (m : Option MetaMap) (k : String) : Option Value :=
  match m with
  | none => none
  | some mm => mm.lookup k

/-- What the `switch` of `MergeErrors` leaves in `e`, as a value. -/
def switched (e o : Error) : Error :=
  if e.Status = 500 ∨ o.Status = 500 then
    if e.Status ≠ 500 then { e with Status := 500, Code := "internal_error" } else e
  else if e.Status ≠ o.Status ∨ e.Code ≠ o.Code then
    { e with Status := 400, Code := "bad_request" }
  else e

/-- The map after assigning the listed entries one after the other. -/
def insertAll (m : MetaMap) (kvs : List (Sigma fun _ : String => Value)) : MetaMap :=
  kvs.foldl (fun acc kv => acc.insert kv.1 kv.2) m

/-- The record `e` holds after a completed `MergeErrors`, as a value. -/
def merged (e o : Error) : Error :=
  { Code := (switched e o).Code
    Status := (switched e o).Status
    Detail := e.Detail ++ "; " ++ o.Detail
    MetaValues := e.MetaValues.map fun m => insertAll m (rangeOf o.MetaValues) }

/-- The merge writes into a nil map: `e.MetaValues` is nil and `o` has an entry. -/
def nilMapWrite (e o : Error) : Prop :=
  e.MetaValues = none ∧ rangeOf o.MetaValues ≠ []

instance (e o : Error) : Decidable (nilMapWrite e o) := by
  unfold nilMapWrite; exact inferInstance

/-- The loop of `Error.Meta` with its index kept: `keyvals[i]` and `keyvals[i+1]` are read
by position, and `none` stands for the run-time panic of a read past the end of the
argument list. -/
def metaIndexed (h : Heap) (p : Nat) (keyvals : List Value) (i : Nat) :
    Option (Except Panic Heap) :=
  if i < keyvals.length then
    match keyvals[i]? with
    | none => none
    | some k =>
      match (if i + 1 < keyvals.length then keyvals[i + 1]? else some (Value.str "MISSING")) with
      | none => none
      | some v =>
        match mapAssign h p (sprintV k) v with
        | .ok h1 => metaIndexed h1 p keyvals (i + 2)
        | .error x => some (.error x)
  else some (.ok h)
termination_by keyvals.length - i

/-- The assignments `e.MetaValues[key] = v` a call of `Meta` performs, in order. -/
def metaWrites : List Value → List (Sigma fun _ : String => Value)
  | [] => []
  | [k] => [⟨sprintV k, .str "MISSING"⟩]
  | k :: v :: rest => ⟨sprintV k, v⟩ :: metaWrites rest

/-- The metadata value under key `k` of the error a call of `Meta` returned. -/
def metaAfter (r : Except Panic (Nat × Heap)) (k : String) : Option Value :=
  match r with
  | .ok (p, h) =>
    match h[p]? with
    | some e => metaGet e.MetaValues k
    | none => none
  | .error _ => none

end Goa

/-!
Metadata maps as references

A Go map is a reference: two `Error` records may hold the same map object, and the
assignment `e.MetaValues[n] = v` is then seen through both.  The state below keeps the map
objects in a heap of their own and a record holds the address of its map, so that sharing
between records can be expressed.  `MergeErrors` is embedded over this state line by line
as above.  The loop over `o.MetaValues` visits the entries the map holds when the loop
starts: when `e` and `o` hold the same map object each assignment gives a key the value it
already has, so no entry is created or changed while the loop runs.
-/

namespace Goa.Shared

/-- The struct `Error` (error.go, lines 64-73), its field `MetaValues` being the address of
a map object; `none` is the nil map. -/
structure Error where
  Code : String
  Status : Int
  Detail : String
  MetaValues : Option Nat
  deriving DecidableEq

/-- The program state: the heap of `Error` records and the heap of map objects. -/
structure State where
  errs : List Error
  maps : List MetaMap

/-- Reading through a `*Error`; an address outside the heap stands for a nil pointer. -/
def load (s : State) (p : Nat) : Except Panic Error :=
  match s.errs[p]? with
  | some e => .ok e
  | none => .error .nilDeref

/-- A field assignment through a `*Error`: the record at address `p` is overwritten. -/
def store (s : State) (p : Nat) (e : Error) : State :=
  { s with errs := s.errs.set p e }

/-- The map object a `MetaValues` field refers to; an address outside the map heap stands
for the nil map. -/
def mapOf (s : State) (mv : Option Nat) : Option MetaMap :=
  match mv with
  | none => none
  | some a => s.maps[a]?

/-- The entries visited by `range m`; none for the nil map. -/
def rangeOf (s : State) (mv : Option Nat) : List (Sigma fun _ : String => Value) :=
  match mapOf s mv with
  | none => []
  | some m => m.entries

/-- The statement `e.MetaValues[n] = v` for the record at address `p`: the map object the
record refers to is updated, whoever else refers to it. -/
def mapAssign (s : State) (p : Nat) (n : String) (v : Value) : Except Panic State :=
  match s.errs[p]? with
  | none => .error .nilDeref
  | some e =>
    match e.MetaValues with
    | none => .error .nilMapAssign
    | some a =>
      match s.maps[a]? with
      | none => .error .nilMapAssign
      | some m => .ok { s with maps := s.maps.set a (m.insert n v) }

/-- Function `asError` (error.go, lines 238-244). -/
def asError (s : State) (err : GoError) : Except Panic (Nat × State) :=
  match err with
  | .ptr p => .ok (p, s)
  | .other msg =>
    .ok (s.errs.length,
      { s with errs := s.errs ++
          [{ Status := 500, Code := "internal_error", Detail := msg, MetaValues := none }] })
  | .nil => .error .nilDeref

/-- The loop `for n, v := range o.MetaValues { e.MetaValues[n] = v }`. -/
def mergeMeta (s : State) (pe : Nat) : List (Sigma fun _ : String => Value) → Except Panic State
  | [] => .ok s
  | kv :: rest =>
    match mapAssign s pe kv.1 kv.2 with
    | .ok s1 => mergeMeta s1 pe rest
    | .error x => .error x

/-- The `switch` of `MergeErrors` (lines 221-230), writing through `e`. -/
def mergeSwitch (s : State) (pe : Nat) (e o : Error) : State :=
  if e.Status = 500 ∨ o.Status = 500 then
    if e.Status ≠ 500 then store s pe { e with Status := 500, Code := "internal_error" } else s
  else if e.Status ≠ o.Status ∨ e.Code ≠ o.Code then
    store s pe { e with Status := 400, Code := "bad_request" }
  else s

/-- Lines 221-235 of `MergeErrors`, once `e` and `o` are the addresses `pe` and `po`. -/
def mergeBody (s2 : State) (pe po : Nat) : Except Panic (GoError × State) :=
  match load s2 pe, load s2 po with
  | .error x, _ => .error x
  | _, .error x => .error x
  | .ok e, .ok o =>
  let s3 := mergeSwitch s2 pe e o
  match load s3 pe, load s3 po with
  | .error x, _ => .error x
  | _, .error x => .error x
  | .ok e1, .ok o1 =>
  let s4 := store s3 pe { e1 with Detail := e1.Detail ++ "; " ++ o1.Detail }
  match load s4 po with
  | .error x => .error x
  | .ok o2 =>
  match mergeMeta s4 pe (rangeOf s4 o2.MetaValues) with
  | .error x => .error x
  | .ok s5 => .ok (.ptr pe, s5)

/-- Function `MergeErrors` (error.go, lines 209-236). -/
def MergeErrors (s : State) (err other : GoError) : Except Panic (GoError × State) :=
  match err, other with
  | .nil, .nil => .ok (.nil, s)
  | .nil, _ =>
    match asError s other with
    | .ok (p, s1) => .ok (.ptr p, s1)
    | .error x => .error x
  | _, .nil =>
    match asError s err with
    | .ok (p, s1) => .ok (.ptr p, s1)
    | .error x => .error x
  | _, _ =>
    match asError s err with
    | .error x => .error x
    | .ok (pe, s1) =>
    match asError s1 other with
    | .error x => .error x
    | .ok (po, s2) => mergeBody s2 pe po

/-- The expression `MergeErrors(MergeErrors(a, b), c)`. -/
def mergeLeft (s : State) (a b c : GoError) : Except Panic (GoError × State) :=
  match MergeErrors s a b with
  | .ok (r, s1) => MergeErrors s1 r c
  | .error x => .error x

/-- The expression `MergeErrors(a, MergeErrors(b, c))`. -/
def mergeRight (s : State) (a b c : GoError) : Except Panic (GoError × State) :=
  match MergeErrors s b c with
  | .ok (r, s1) => MergeErrors s1 a r
  | .error x => .error x

/-- The value of the record at address `p`: its fields, with the contents of the map object
it refers to. -/
def view (s : State) (p : Nat) : Option Goa.Error :=
  match s.errs[p]? with
  | none => none
  | some e => some ⟨e.Code, e.Status, e.Detail, mapOf s e.MetaValues⟩

/-- The value of the record behind the `error` returned by a call, if the call returned a
`*Error`. -/
def resultOf : Except Panic (GoError × State) → Option Goa.Error
  | .ok (.ptr p, s) => view s p
  | _ => none

/-- What the `switch` of `MergeErrors` leaves in `e`, as a value. -/
def switched (e o : Error) : Error :=
  if e.Status = 500 ∨ o.Status = 500 then
    if e.Status ≠ 500 then { e with Status := 500, Code := "internal_error" } else e
  else if e.Status ≠ o.Status ∨ e.Code ≠ o.Code then
    { e with Status := 400, Code := "bad_request" }
  else e

/-- The record `e` holds after a completed `MergeErrors`: status and code as the `switch`
leaves them, the details joined, the same map object. -/
def fused (e o : Error) : Error :=
  { switched e o with Detail := e.Detail ++ "; " ++ o.Detail }

end Goa.Shared

/-!
HTTP response validation (package expr)

The validator exercised by `expr/http_response_test.go` is not among the source
files; only its test is.  It is modelled from section 4.1 of the specification,
each clause naming the rule it comes from, and from the expectations of
`TestHTTPResponseValidation` where the specification is silent.
-/

namespace Expr

/-- Modelled from the spec: the primitive types a result or attribute can have. -/
inductive Prim where
  | boolean
  | int
  | float
  | string
  | bytes
  deriving DecidableEq, Repr

/-- Modelled from the spec: the `ResultType` of section 3 (shapes Empty, Primitive, Object,
Array, Map and a named user type carrying its resolved definition).  The `Required` flag of
an attribute is left out: no validation rule reads it. -/
inductive ResultType where
  | empty
  | primitive (p : Prim)
  | object (attrs : List (String × ResultType))
  | array (elem : ResultType)
  | map (key : ResultType) (elem : ResultType)
  | userType (name : String) (defn : ResultType)

/-- Modelled from the spec: a `View` of section 3. -/
structure View where
  Name : String
  AttributeNames : List String

/-- Modelled from the spec: a `HeaderBinding` of section 3.  The bare form `"name"` is the
binding whose wire name equals its attribute name. -/
structure HeaderBinding where
  WireName : String
  AttributeName : String

/-- Modelled from the spec: the `ResponseDescriptor` of section 3. -/
structure ResponseDescriptor where
  StatusCode : Int
  ContentType : Option String
  Headers : List HeaderBinding
  SkipBodyCoding : Bool
  HasGRPCTransport : Bool

/-- Modelled from the spec: a `Diagnostic` of section 3; `ResponseLevel` selects the
attribution `HTTP response of service ...` instead of `service ...` (section 4.1). -/
structure Diagnostic where
  ResponseLevel : Bool
  ServiceName : String
  EndpointName : String
  Message : String
  deriving DecidableEq, Repr

/-- Modelled from the spec: the verb `%q` of the attribution formats, on a name without
characters to escape. -/
def quote (s : String) : String := "\"" ++ s ++ "\""

/-- Modelled from the spec: the attribution formats `"service %q HTTP endpoint %q: %s"` and
`"HTTP response of service %q HTTP endpoint %q: %s"` of section 4.1. -/
def Diagnostic.text (d : Diagnostic) : String :=
  (if d.ResponseLevel then "HTTP response of service " else "service ")
    ++ quote d.ServiceName ++ " HTTP endpoint " ++ quote d.EndpointName ++ ": " ++ d.Message

/-- Modelled from the spec: the reported failure, the diagnostics joined by a newline
(section 3, Diagnostic). -/
def report (ds : List Diagnostic) : String :=
  "\n".intercalate (ds.map Diagnostic.text)

/-- Modelled from the spec: a user type stands for its resolved definition (section 6). -/
def resolveType : ResultType → ResultType
  | .userType _ d => resolveType d
  | t => t

/-- Modelled from the spec: the type resolves to a primitive. -/
def isPrimitive (t : ResultType) : Bool :=
  match resolveType t with
  | .primitive _ => true
  | _ => false

/-- Modelled from the spec: the type resolves to an array of primitives. -/
def isArrayOfPrimitive (t : ResultType) : Bool :=
  match resolveType t with
  | .array e => isPrimitive e
  | _ => false

/-- Modelled from the spec: the legal header types of rule 3 of section 4.1, a primitive or
an array of primitives. -/
def legalHeaderType (t : ResultType) : Bool :=
  isPrimitive t || isArrayOfPrimitive t

/-- Modelled from the spec: the bare form of a binding (section 3). -/
def HeaderBinding.isBare (b : HeaderBinding) : Bool :=
  b.WireName == b.AttributeName

/-- Modelled from the spec: message of rule 1, as expected by the test case "invalid". -/
def msgEmptyResult : String := "response defines headers but result is empty"

/-- Modelled from the spec: message of rule 2, as expected by the test case "missing header
result attribute". -/
def msgNoAttribute (wire : String) : String :=
  "header " ++ quote wire ++ " has no equivalent attribute in result type, use notation "
    ++ "'attribute_name:header_name' to identify corresponding result type attribute."

/-- Modelled from the spec: message of rule 3, as expected by the test case "map result". -/
def msgHeaderType (name : String) : String :=
  "attribute " ++ quote name
    ++ " used in HTTP headers must be a primitive type or an array of primitive types."

/-- Modelled from the spec: message expected by the test case "array of object in header". -/
def msgArrayResult : String :=
  "Array result is mapped to an HTTP header but is not an array of primitive types."

/-- Modelled from the spec: message of rule 4. -/
def msgTextPlain : String :=
  "Result type must be String or Bytes when ContentType is 'text/plain'"

/-- Modelled from the spec: message of rule 5. -/
def msgSkipGRPC : String :=
  "Endpoint response cannot use SkipResponseBodyEncodeDecode and define a gRPC transport."

/-- Modelled from the spec: rule 1 of section 4.1, empty result with headers. -/
def ruleEmptyResult (svc ep : String) (result : ResultType) (resp : ResponseDescriptor) :
    List Diagnostic :=
  match resolveType result, resp.Headers with
  | .empty, _ :: _ => [⟨true, svc, ep, msgEmptyResult⟩]
  | _, _ => []

/-- Modelled from the spec: rule 2 of section 4.1, header attribute resolution.  On an object
the attribute must exist; a primitive or an array of primitives is targeted as a whole by a
bare binding.  Other shapes give no diagnostic here: the test case "array of object in header"
expects none for an array of objects, and rule 1 covers the empty result. -/
def ruleResolution (svc ep : String) (result : ResultType) (resp : ResponseDescriptor) :
    List Diagnostic :=
  resp.Headers.flatMap fun b =>
    match resolveType result with
    | .object attrs =>
      match attrs.lookup b.AttributeName with
      | some _ => []
      | none => [⟨true, svc, ep, msgNoAttribute b.WireName⟩]
    | .primitive _ =>
      if b.isBare then [] else [⟨true, svc, ep, msgNoAttribute b.WireName⟩]
    | .array e =>
      if isPrimitive e then
        if b.isBare then [] else [⟨true, svc, ep, msgNoAttribute b.WireName⟩]
      else []
    | _ => []

/-- Modelled from the spec: rule 3 of section 4.1 (with rule 6), header type legality, one
diagnostic per offending binding.  An attribute that does not resolve is reported here as
well (test case "missing header result attribute"), and a result that is as a whole an array
of non-primitives gets the message of the test case "array of object in header". -/
def ruleHeaderType (svc ep : String) (result : ResultType) (resp : ResponseDescriptor) :
    List Diagnostic :=
  match resolveType result with
  | .object attrs =>
    resp.Headers.flatMap fun b =>
      match attrs.lookup b.AttributeName with
      | some t =>
        if legalHeaderType t then [] else [⟨false, svc, ep, msgHeaderType b.AttributeName⟩]
      | none => [⟨false, svc, ep, msgHeaderType b.AttributeName⟩]
  | .array e =>
    if isPrimitive e then []
    else
      match resp.Headers with
      | [] => []
      | _ :: _ => [⟨false, svc, ep, msgArrayResult⟩]
  | .map _ _ =>
    resp.Headers.map fun b => ⟨false, svc, ep, msgHeaderType b.AttributeName⟩
  | _ => []

/-- Modelled from the spec: the body-carrying type of rule 4, "the whole result, or the
body-mapped attribute if headers consume the rest". -/
def bodyType (result : ResultType) (resp : ResponseDescriptor) : ResultType :=
  match resolveType result with
  | .object attrs =>
    match attrs.filter fun a => !(resp.Headers.any fun b => b.AttributeName == a.1) with
    | [a] => if 1 < attrs.length then a.2 else result
    | _ => result
  | _ => result

/-- Modelled from the spec: the type resolves to String or Bytes (rule 4). -/
def isStringOrBytes (t : ResultType) : Bool :=
  match resolveType t with
  | .primitive .string => true
  | .primitive .bytes => true
  | _ => false

/-- Modelled from the spec: rule 4 of section 4.1, content type `text/plain`. -/
def ruleTextPlain (svc ep : String) (result : ResultType) (resp : ResponseDescriptor) :
    List Diagnostic :=
  if resp.ContentType = some "text/plain" then
    if isStringOrBytes (bodyType result resp) then [] else [⟨true, svc, ep, msgTextPlain⟩]
  else []

/-- Modelled from the spec: rule 5 of section 4.1, transport exclusivity. -/
def ruleExclusive (svc ep : String) (resp : ResponseDescriptor) : List Diagnostic :=
  if resp.SkipBodyCoding && resp.HasGRPCTransport then [⟨false, svc, ep, msgSkipGRPC⟩] else []

/-- Modelled from the spec: `Validate(result, views, resp)` of section 4.1, the validator of
package expr that is absent from the sources.  The rules run in the order of the
specification and none stops the others; the empty list means valid. -/
def Validate (svc ep : String) (result : ResultType) (_views : List View)
    (resp : ResponseDescriptor) : List Diagnostic :=
  ruleEmptyResult svc ep result resp
    ++ ruleResolution svc ep result resp
    ++ ruleHeaderType svc ep result resp
    ++ ruleTextPlain svc ep result resp
    ++ ruleExclusive svc ep resp

end Expr

/-!
Generated response decoders (http/codegen/testdata/result_decode_functions.go)

The five decoders of the file, as functions from a response to a result or an error.
What they call from other packages is taken as given: the body decoder
(`decoder(resp).Decode(&body)`), the constructors of the projected and final results, the
method `Validate` of the projected result, and the error constructors of `goahttp`, which
are kept as constructors of the error type.  `ioutil.ReadAll(resp.Body)` yields the bytes
read and, possibly, a read error; both are fields of the response body.
-/

namespace Testdata

/-- An `error` value, by the way the decoders obtain it: handed over by a callee (`ext`),
built by `fmt.Errorf("unknown goa-view in header %q", view)`, or built by one of the
`goahttp` constructors. -/
inductive Err where
  | ext (text : String)
  | unknownView (view : String)
  | ErrDecodingError (svc method : String) (err : Err)
  | ErrValidationError (svc method : String) (err : Err)
  | ErrInvalidResponse (svc method : String) (status : Int) (body : String)
  deriving DecidableEq, Repr

/-- The response body as `ioutil.ReadAll` sees it: the bytes it returns and its error. -/
structure Body where
  data : String
  err : Option String
  deriving DecidableEq, Repr

/-- The header of a response. -/
abbrev Header := List (String × String)

/-- Method `Header.Get`: the value of the header, the empty string when it is absent. -/
def Header.Get (h : Header) (key : String) : String := (h.lookup key).getD ""

/-- The fields of `*http.Response` the decoders read. -/
structure Response where
  StatusCode : Int
  Header : Header
  Body : Body
  deriving DecidableEq, Repr

/-- The projected result `vres.Projected`: the header-bound attribute `C` and the other
attributes. -/
structure ResulttypemultipleviewsView (π : Type) where
  fields : π
  C : Option String

/-- The viewed result type `Resulttypemultipleviews` of the views packages. -/
structure Resulttypemultipleviews (π : Type) where
  Projected : ResulttypemultipleviewsView π
  View : String

/-- The opening of every decoder (lines 9-20): with `restoreBody` the body is read to the
end, a read error is returned as it is, and `resp.Body` becomes a buffer over the bytes
read; without it the response is left as it came. -/
def readAndRestore (restoreBody : Bool) (resp : Response) : Except Err Response :=
  if restoreBody then
    match resp.Body.err with
    | some e => .error (.ext e)
    | none => .ok { resp with Body := ⟨resp.Body.data, none⟩ }
  else .ok resp

/-- The statements `cRaw := resp.Header.Get(...); if cRaw != "" { c = &cRaw }`. -/
def headerPtr (cRaw : String) : Option String :=
  if cRaw ≠ "" then some cRaw else none

/-- The `switch view` of the multiple-view decoders (lines 72-79). -/
def switchView {β π : Type} (svc method : String)
    (newDefault newTiny : β → Resulttypemultipleviews π) (view : String) (body : β) :
    Except Err (Resulttypemultipleviews π) :=
  if view = "default" ∨ view = "" then .ok (newDefault body)
  else if view = "tiny" then .ok (newTiny body)
  else .error (.ErrValidationError svc method (.unknownView view))

/-- The assignment `vres.Projected.C = c` (line 80). -/
def setC {π : Type} (vres : Resulttypemultipleviews π) (c : Option String) :
    Resulttypemultipleviews π :=
  { vres with Projected := { vres.Projected with C := c } }

/-- The closing of a view branch (lines 81-84): `vres.Validate()`, then the result. -/
def validated {π ρ : Type} (svc method : String)
    (validate : Resulttypemultipleviews π → Option Err)
    (newResult : Resulttypemultipleviews π → ρ) (vres : Resulttypemultipleviews π) :
    Except Err ρ :=
  match validate vres with
  | some err => .error (.ErrValidationError svc method err)
  | none => .ok (newResult vres)

/-- Decoder `DecodeMethodEmptyServerResponseResponse` (lines 7-29); its `decoder` argument is
not used. -/
def DecodeMethodEmptyServerResponseResponse {ρ : Type} (newResultOK : ρ)
    (restoreBody : Bool) (resp : Response) : Except Err ρ :=
  match readAndRestore restoreBody resp with
  | .error e => .error e
  | .ok resp =>
    if resp.StatusCode = 200 then .ok newResultOK
    else
      .error (.ErrInvalidResponse "ServiceEmptyServerResponse" "MethodEmptyServerResponse"
        resp.StatusCode resp.Body.data)

/-- Decoder `DecodeMethodBodyMultipleViewResponse` (lines 36-90). -/
def DecodeMethodBodyMultipleViewResponse {β π ρ : Type}
    (newDefault newTiny : β → Resulttypemultipleviews π)
    (validate : Resulttypemultipleviews π → Option Err)
    (newResult : Resulttypemultipleviews π → ρ)
    (decoder : Response → Except Err β) (restoreBody : Bool) (resp : Response) :
    Except Err ρ :=
  match readAndRestore restoreBody resp with
  | .error e => .error e
  | .ok resp =>
    if resp.StatusCode = 200 then
      match decoder resp with
      | .error err =>
        .error (.ErrDecodingError "ServiceBodyMultipleView" "MethodBodyMultipleView" err)
      | .ok body =>
        let c := headerPtr (resp.Header.Get "Location")
        let view := resp.Header.Get "goa-view"
        match switchView "ServiceBodyMultipleView" "MethodBodyMultipleView"
            newDefault newTiny view body with
        | .error e => .error e
        | .ok vres =>
          validated "ServiceBodyMultipleView" "MethodBodyMultipleView" validate newResult
            (setC vres c)
    else
      .error (.ErrInvalidResponse "ServiceBodyMultipleView" "MethodBodyMultipleView"
        resp.StatusCode resp.Body.data)

/-- Decoder `DecodeMethodEmptyBodyResultMultipleViewResponse` (lines 97-126); its `decoder`
argument is not used. -/
def DecodeMethodEmptyBodyResultMultipleViewResponse {ρ : Type} (newOK : Option String → ρ)
    (restoreBody : Bool) (resp : Response) : Except Err ρ :=
  match readAndRestore restoreBody resp with
  | .error e => .error e
  | .ok resp =>
    if resp.StatusCode = 200 then
      let c := headerPtr (resp.Header.Get "Location")
      .ok (newOK c)
    else
      .error (.ErrInvalidResponse "ServiceEmptyBodyResultMultipleView"
        "MethodEmptyBodyResultMultipleView" resp.StatusCode resp.Body.data)

/-- Decoder `DecodeMethodExplicitBodyUserResultMultipleViewResponse` (lines 133-170). -/
def DecodeMethodExplicitBodyUserResultMultipleViewResponse {β ρ : Type}
    (newOK : β → Option String → ρ)
    (decoder : Response → Except Err β) (restoreBody : Bool) (resp : Response) :
    Except Err ρ :=
  match readAndRestore restoreBody resp with
  | .error e => .error e
  | .ok resp =>
    if resp.StatusCode = 200 then
      match decoder resp with
      | .error err =>
        .error (.ErrDecodingError "ServiceExplicitBodyUserResultMultipleView"
          "MethodExplicitBodyUserResultMultipleView" err)
      | .ok body =>
        let c := headerPtr (resp.Header.Get "Location")
        .ok (newOK body c)
    else
      .error (.ErrInvalidResponse "ServiceExplicitBodyUserResultMultipleView"
        "MethodExplicitBodyUserResultMultipleView" resp.StatusCode resp.Body.data)

/-- Decoder `DecodeMethodTagMultipleViewsResponse` (lines 177-257); `decodeAccepted` and
`decodeOK` are `decoder(resp).Decode` into the two response body types. -/
def DecodeMethodTagMultipleViewsResponse {β1 β2 π ρ : Type}
    (newAcceptedDefault newAcceptedTiny : β1 → Resulttypemultipleviews π)
    (newOKDefault newOKTiny : β2 → Resulttypemultipleviews π)
    (validate : Resulttypemultipleviews π → Option Err)
    (newResult : Resulttypemultipleviews π → ρ)
    (decodeAccepted : Response → Except Err β1) (decodeOK : Response → Except Err β2)
    (restoreBody : Bool) (resp : Response) : Except Err ρ :=
  match readAndRestore restoreBody resp with
  | .error e => .error e
  | .ok resp =>
    if resp.StatusCode = 202 then
      match decodeAccepted resp with
      | .error err =>
        .error (.ErrDecodingError "ServiceTagMultipleViews" "MethodTagMultipleViews" err)
      | .ok body =>
        let c := headerPtr (resp.Header.Get "c")
        let view := resp.Header.Get "goa-view"
        match switchView "ServiceTagMultipleViews" "MethodTagMultipleViews"
            newAcceptedDefault newAcceptedTiny view body with
        | .error e => .error e
        | .ok vres =>
          validated "ServiceTagMultipleViews" "MethodTagMultipleViews" validate newResult
            (setC vres c)
    else if resp.StatusCode = 200 then
      match decodeOK resp with
      | .error err =>
        .error (.ErrDecodingError "ServiceTagMultipleViews" "MethodTagMultipleViews" err)
      | .ok body =>
        let view := resp.Header.Get "goa-view"
        match switchView "ServiceTagMultipleViews" "MethodTagMultipleViews"
            newOKDefault newOKTiny view body with
        | .error e => .error e
        | .ok vres =>
          validated "ServiceTagMultipleViews" "MethodTagMultipleViews" validate newResult vres
    else
      .error (.ErrInvalidResponse "ServiceTagMultipleViews" "MethodTagMultipleViews"
        resp.StatusCode resp.Body.data)

/-- The response `resp` with the header "goa-view" set to `v`. -/
def withView (resp : Response) (v : String) : Response :=
  { resp with Header := ("goa-view", v) :: resp.Header }

/-! Sample callees, used to run the decoders on concrete responses. -/

/-- A sample body decoder: the body text itself, an error on an empty body. -/
def sampleDecoder (resp : Response) : Except Err String :=
  if resp.Body.data = "" then .error (.ext "EOF") else .ok resp.Body.data

/-- A sample default projection: keeps the body text. -/
def sampleDefault (body : String) : Resulttypemultipleviews String :=
  ⟨⟨body, none⟩, "default"⟩

/-- A sample tiny projection: drops the body text. -/
def sampleTiny (_body : String) : Resulttypemultipleviews String :=
  ⟨⟨"", none⟩, "tiny"⟩

/-- A sample re-validation: the attribute `C` must not be "bad". -/
def sampleValidate (vres : Resulttypemultipleviews String) : Option Err :=
  if vres.Projected.C = some "bad" then some (.ext "c is invalid") else none

/-- A sample final result: view name, body attributes and `C`. -/
def sampleResult (vres : Resulttypemultipleviews String) : String × String × Option String :=
  (vres.View, vres.Projected.fields, vres.Projected.C)

/-- A sample constructor of a final result from the header attribute alone. -/
def sampleOK (c : Option String) : String × String × Option String := ("", "", c)

/-- A sample constructor of a final result from a decoded body and the header attribute. -/
def sampleUserOK (body : String) (c : Option String) : String × String × Option String :=
  ("", body, c)

/-- The re-validation of `sampleValidate` on a final result. -/
def sampleValidateResult (r : String × String × Option String) : Option Err :=
  if r.2.2 = some "bad" then some (.ext "c is invalid") else none

end Testdata

namespace Goa

/-! ## Heap lemmas -/

theorem set_same_of_get {h : Heap} {p : Nat} {e : Error} (hp : h[p]? = some e) :
    h.set p e = h := by
  induction h generalizing p with
  | nil => simp
  | cons x xs ih =>
    cases p with
    | zero => simp at hp; simp [hp]
    | succ n => simp at hp; simp [ih hp]

theorem get_set_same {h : Heap} {p : Nat} {e x : Error} (hp : h[p]? = some e) :
    (h.set p x)[p]? = some x := by
  obtain ⟨hlt, _⟩ := List.getElem?_eq_some_iff.mp hp
  exact List.getElem?_set_self hlt

theorem load_of_get {h : Heap} {p : Nat} {e : Error} (hp : h[p]? = some e) :
    load h p = .ok e := by
  simp [load, hp]

theorem mergeSwitch_eq {h : Heap} {pe : Nat} {e : Error} (o : Error) (hp : h[pe]? = some e) :
    mergeSwitch h pe e o = h.set pe (switched e o) := by
  unfold mergeSwitch switched
  split_ifs <;> simp [set_same_of_get hp]

theorem switched_self (e : Error) : switched e e = e := by
  unfold switched
  split_ifs <;> simp_all

theorem switched_MetaValues (e o : Error) : (switched e o).MetaValues = e.MetaValues := by
  unfold switched
  split_ifs <;> rfl

theorem switched_Detail (e o : Error) : (switched e o).Detail = e.Detail := by
  unfold switched
  split_ifs <;> rfl

theorem mergeMeta_some (pe : Nat) (kvs : List (Sigma fun _ : String => Value)) :
    ∀ (h : Heap) (e : Error) (m : MetaMap), h[pe]? = some e → e.MetaValues = some m →
      mergeMeta h pe kvs
        = .ok (h.set pe { e with MetaValues := some (insertAll m kvs) }) := by
  induction kvs with
  | nil =>
    intro h e m hp hm
    have : ({ e with MetaValues := some (insertAll m []) } : Error) = e := by
      cases e; simp_all [insertAll]
    simp [mergeMeta, this, set_same_of_get hp]
  | cons kv rest ih =>
    intro h e m hp hm
    have h1 : (h.set pe { e with MetaValues := some (m.insert kv.1 kv.2) })[pe]?
        = some { e with MetaValues := some (m.insert kv.1 kv.2) } := get_set_same hp
    simp only [mergeMeta, mapAssign, hp, hm]
    rw [ih _ _ (m.insert kv.1 kv.2) h1 rfl]
    simp [List.set_set, insertAll]

theorem mergeMeta_none {h : Heap} {pe : Nat} {e : Error}
    (kv : Sigma fun _ : String => Value) (rest : List (Sigma fun _ : String => Value))
    (hp : h[pe]? = some e) (hm : e.MetaValues = none) :
    mergeMeta h pe (kv :: rest) = .error .nilMapAssign := by
  simp [mergeMeta, mapAssign, hp, hm]

theorem load_set_same {h : Heap} {p : Nat} (x : Error) (hlt : p < h.length) :
    load (h.set p x) p = .ok x := by
  simp [load, List.getElem?_set_self hlt]

theorem load_set_ne {h : Heap} {p q : Nat} (x : Error) (hne : p ≠ q) :
    load (h.set p x) q = load h q := by
  simp [load, List.getElem?_set_ne hne]

theorem mergeBody_steps {h : Heap} {pe po : Nat} {e o : Error}
    (he : h[pe]? = some e) (ho : h[po]? = some o) :
    mergeBody h pe po
      = match mergeMeta
            (h.set pe { switched e o with Detail := e.Detail ++ "; " ++ o.Detail })
            pe (rangeOf o.MetaValues) with
        | .error x => .error x
        | .ok h5 => .ok (.ptr pe, h5) := by
  obtain ⟨hlt, _⟩ := List.getElem?_eq_some_iff.mp he
  unfold mergeBody
  simp only [load_of_get he, load_of_get ho, mergeSwitch_eq o he]
  by_cases hpp : pe = po
  · subst hpp
    have heo : e = o := by rw [he] at ho; exact Option.some.inj ho
    subst heo
    have hl : pe < (h.set pe (switched e e)).length := by simpa using hlt
    simp only [load_set_same _ hlt, load_set_same _ hl, List.set_set, switched_self]
  · have hl : pe < (h.set pe (switched e o)).length := by simpa using hlt
    simp only [load_set_same _ hlt, load_set_ne _ hpp, load_of_get ho, List.set_set,
      switched_Detail]

theorem mergeBody_ok {h : Heap} {pe po : Nat} {e o : Error}
    (he : h[pe]? = some e) (ho : h[po]? = some o) (hm : ¬ nilMapWrite e o) :
    mergeBody h pe po = .ok (.ptr pe, h.set pe (merged e o)) := by
  rw [mergeBody_steps he ho]
  have h4 : (h.set pe { switched e o with Detail := e.Detail ++ "; " ++ o.Detail })[pe]?
      = some { switched e o with Detail := e.Detail ++ "; " ++ o.Detail } := get_set_same he
  cases hmv : e.MetaValues with
  | none =>
    have hr : rangeOf o.MetaValues = [] := by
      by_contra hne
      exact hm ⟨hmv, hne⟩
    simp [hr, mergeMeta, merged, hmv, switched_MetaValues]
  | some m =>
    rw [mergeMeta_some pe _ _ _ m h4 (by simp [switched_MetaValues, hmv])]
    simp [List.set_set, merged, hmv]

theorem mergeBody_panic {h : Heap} {pe po : Nat} {e o : Error}
    (he : h[pe]? = some e) (ho : h[po]? = some o) (hm : nilMapWrite e o) :
    mergeBody h pe po = .error .nilMapAssign := by
  rw [mergeBody_steps he ho]
  have h4 : (h.set pe { switched e o with Detail := e.Detail ++ "; " ++ o.Detail })[pe]?
      = some { switched e o with Detail := e.Detail ++ "; " ++ o.Detail } := get_set_same he
  obtain ⟨hn, hr⟩ := hm
  cases hkv : rangeOf o.MetaValues with
  | nil => exact absurd hkv hr
  | cons kv rest =>
    rw [mergeMeta_none kv rest h4 (by simp [switched_MetaValues, hn])]

/-! ## From `asError` to `MergeErrors` -/

theorem get_append_of_get {h : Heap} {p : Nat} {e : Error} (ext : Heap)
    (hp : h[p]? = some e) : (h ++ ext)[p]? = some e := by
  obtain ⟨hlt, _⟩ := List.getElem?_eq_some_iff.mp hp
  rw [List.getElem?_append_left hlt]; exact hp

theorem asError_spec {h : Heap} {a : GoError} {ea : Error} (ha : converted h a = some ea) :
    ∃ pe h1, asError h a = .ok (pe, h1) ∧ h1[pe]? = some ea ∧ (∃ ext, h1 = h ++ ext) ∧
      (a = .ptr pe ∨ ((∃ msg, a = .other msg) ∧ pe = h.length)) := by
  cases a with
  | nil => simp [converted, asError] at ha
  | ptr p =>
    refine ⟨p, h, rfl, ?_, ⟨[], by simp⟩, Or.inl rfl⟩
    simpa [converted, asError] using ha
  | other msg =>
    refine ⟨h.length, h ++ [ea], ?_, by simp, ⟨[ea], rfl⟩, Or.inr ⟨⟨msg, rfl⟩, rfl⟩⟩
    simp only [converted, asError, alloc] at ha
    rw [List.getElem?_concat_length] at ha
    simp only [asError, alloc]
    rw [Option.some.inj ha]

theorem converted_append {h : Heap} {b : GoError} {eb : Error} (ext : Heap)
    (hb : converted h b = some eb) : converted (h ++ ext) b = some eb := by
  cases b with
  | nil => simp [converted, asError] at hb
  | ptr p =>
    simp only [converted, asError] at hb ⊢
    exact get_append_of_get ext hb
  | other msg =>
    simp only [converted, asError, alloc] at hb ⊢
    rw [List.getElem?_concat_length] at hb ⊢
    exact hb

theorem MergeErrors_eq_body {h : Heap} {a b : GoError} (ha : a ≠ .nil) (hb : b ≠ .nil) :
    MergeErrors h a b
      = match asError h a with
        | .error x => .error x
        | .ok (pe, h1) =>
          match asError h1 b with
          | .error x => .error x
          | .ok (po, h2) => mergeBody h2 pe po := by
  cases a <;> cases b <;> simp_all [MergeErrors]

theorem converted_ne_nil {h : Heap} {a : GoError} {ea : Error} (ha : converted h a = some ea) :
    a ≠ .nil := by
  rintro rfl
  simp [converted, asError] at ha

/-- A completed merge: the returned pointer holds `merged ea eb`, the result is `a` itself
when `a` is a `*Error` and a fresh record otherwise, and all other records are untouched. -/
theorem MergeErrors_ok {h : Heap} {a b : GoError} {ea eb : Error}
    (ha : converted h a = some ea) (hb : converted h b = some eb)
    (hm : ¬ nilMapWrite ea eb) :
    ∃ pe h9, MergeErrors h a b = .ok (.ptr pe, h9) ∧ h9[pe]? = some (merged ea eb) ∧
      (a = .ptr pe ∨ ((∃ msg, a = .other msg) ∧ pe = h.length)) ∧ h.length ≤ h9.length ∧
      ∀ q, q < h.length → q ≠ pe → h9[q]? = h[q]? := by
  obtain ⟨pe, h1, e1, g1, ⟨ext1, x1⟩, w1⟩ := asError_spec ha
  have hb1 : converted h1 b = some eb := by rw [x1]; exact converted_append ext1 hb
  obtain ⟨po, h2, e2, g2, ⟨ext2, x2⟩, _⟩ := asError_spec hb1
  have g1b : h2[pe]? = some ea := by rw [x2]; exact get_append_of_get ext2 g1
  rw [MergeErrors_eq_body (converted_ne_nil ha) (converted_ne_nil hb), e1]
  simp only [e2]
  rw [mergeBody_ok g1b g2 hm]
  refine ⟨pe, _, rfl, get_set_same g1b, w1, ?_, ?_⟩
  · simp [x2, x1]
  · intro q hq hne
    rw [List.getElem?_set_ne (Ne.symm hne), x2, x1, List.append_assoc,
      List.getElem?_append_left hq]

/-- A merge that has to write an entry into a nil map does not return. -/
theorem MergeErrors_panic {h : Heap} {a b : GoError} {ea eb : Error}
    (ha : converted h a = some ea) (hb : converted h b = some eb)
    (hm : nilMapWrite ea eb) :
    MergeErrors h a b = .error .nilMapAssign := by
  obtain ⟨pe, h1, e1, g1, ⟨ext1, x1⟩, _⟩ := asError_spec ha
  have hb1 : converted h1 b = some eb := by rw [x1]; exact converted_append ext1 hb
  obtain ⟨po, h2, e2, g2, ⟨ext2, x2⟩, _⟩ := asError_spec hb1
  have g1b : h2[pe]? = some ea := by rw [x2]; exact get_append_of_get ext2 g1
  rw [MergeErrors_eq_body (converted_ne_nil ha) (converted_ne_nil hb), e1]
  simp only [e2]
  exact mergeBody_panic g1b g2 hm

theorem resultOf_MergeErrors {h : Heap} {a b : GoError} {ea eb : Error}
    (ha : converted h a = some ea) (hb : converted h b = some eb)
    (hm : ¬ nilMapWrite ea eb) :
    resultOf (MergeErrors h a b) = some (merged ea eb) := by
  obtain ⟨pe, h9, hr, hg, _⟩ := MergeErrors_ok ha hb hm
  rw [hr]; exact hg

end Goa

namespace Goa

/-! ## The merged record, field by field -/

theorem merged_Detail (e o : Error) : (merged e o).Detail = e.Detail ++ "; " ++ o.Detail := rfl

theorem merged_of_internal {e o : Error} (hs : e.Status = 500 ∨ o.Status = 500) :
    (merged e o).Status = 500 ∧
      (merged e o).Code = if e.Status = 500 then e.Code else "internal_error" := by
  constructor
  · simp only [merged, switched, if_pos hs]
    by_cases h1 : e.Status = 500 <;> simp [h1]
  · simp only [merged, switched, if_pos hs]
    by_cases h1 : e.Status = 500 <;> simp [h1]

theorem merged_of_mismatch {e o : Error} (he : e.Status ≠ 500) (ho : o.Status ≠ 500)
    (hd : e.Status ≠ o.Status ∨ e.Code ≠ o.Code) :
    (merged e o).Status = 400 ∧ (merged e o).Code = "bad_request" := by
  have hn : ¬ (e.Status = 500 ∨ o.Status = 500) := by
    rintro (h | h)
    · exact he h
    · exact ho h
  simp only [merged, switched, if_neg hn, if_pos hd, and_self]

theorem merged_of_match {e o : Error} (he : e.Status ≠ 500) (ho : o.Status ≠ 500)
    (hs : e.Status = o.Status) (hc : e.Code = o.Code) :
    (merged e o).Status = e.Status ∧ (merged e o).Code = e.Code := by
  have hn : ¬ (e.Status = 500 ∨ o.Status = 500) := by
    rintro (h | h)
    · exact he h
    · exact ho h
  have hd : ¬ (e.Status ≠ o.Status ∨ e.Code ≠ o.Code) := by
    rintro (h | h)
    · exact h hs
    · exact h hc
  simp only [merged, switched, if_neg hn, if_neg hd, and_self]

theorem lookup_insertAll (k : String) (kvs : List (Sigma fun _ : String => Value)) :
    ∀ (m : MetaMap), kvs.NodupKeys →
      (insertAll m kvs).lookup k
        = match List.dlookup k kvs with
          | some v => some v
          | none => m.lookup k := by
  induction kvs with
  | nil => intro m _; simp [insertAll]
  | cons kv rest ih =>
    intro m hnd
    obtain ⟨hnot, hrest⟩ := List.nodupKeys_cons.mp hnd
    have hstep : insertAll m (kv :: rest) = insertAll (m.insert kv.1 kv.2) rest := rfl
    rw [hstep, ih _ hrest]
    by_cases hk : k = kv.1
    · subst hk
      have hnone : List.dlookup kv.1 rest = none := List.dlookup_eq_none.mpr hnot
      have hhead : List.dlookup kv.1 (kv :: rest) = some kv.2 := by
        cases kv; exact List.dlookup_cons_eq _ _ _
      simp [hnone, hhead, AList.lookup_insert]
    · rw [List.dlookup_cons_ne rest kv hk, AList.lookup_insert_ne hk]

/-- The metadata of a completed merge into a set map: `o` wins on its keys, `e` keeps the
others. -/
theorem metaGet_merged (e o : Error) (m : MetaMap) (k : String) (hm : e.MetaValues = some m) :
    metaGet (merged e o).MetaValues k
      = match metaGet o.MetaValues k with
        | some v => some v
        | none => m.lookup k := by
  cases ho : o.MetaValues with
  | none => simp [merged, hm, ho, metaGet, rangeOf, insertAll]
  | some mo =>
    simp only [merged, hm, ho, metaGet, rangeOf, Option.map_some']
    rw [lookup_insertAll k mo.entries m mo.nodupKeys]
    rfl

/-! ## Claims on `MergeErrors`, the error classes and `Meta` -/

theorem not_nilMapWrite_of {e o : Error}
    (hm : e.MetaValues ≠ none ∨ rangeOf o.MetaValues = []) : ¬ nilMapWrite e o := by
  rintro ⟨h1, h2⟩
  rcases hm with h | h
  · exact h h1
  · exact h2 h

/-- C1 (as stated) fails: merging into an error that already has status 500 keeps its code.
With `a` as built by `ErrInternal("boom")` and `b` as built by `ErrBadRequest("x")`, the
result has status 500 and code "internal", not "internal_error". -/
theorem MergeErrors_keeps_code_of_internal_counterexample :
    (converted [⟨"internal", 500, "boom", none⟩, ⟨"bad_request", 400, "x", none⟩] (.ptr 0)
        = some ⟨"internal", 500, "boom", none⟩) ∧
    (converted [⟨"internal", 500, "boom", none⟩, ⟨"bad_request", 400, "x", none⟩] (.ptr 1)
        = some ⟨"bad_request", 400, "x", none⟩) ∧
    ¬ ∃ r, resultOf (MergeErrors
          [⟨"internal", 500, "boom", none⟩, ⟨"bad_request", 400, "x", none⟩] (.ptr 0) (.ptr 1))
        = some r ∧ r.Status = 500 ∧ r.Code = "internal_error" := by
  refine ⟨rfl, rfl, ?_⟩
  rintro ⟨r, hr, _, hc⟩
  have hv : resultOf (MergeErrors
      [⟨"internal", 500, "boom", none⟩, ⟨"bad_request", 400, "x", none⟩] (.ptr 0) (.ptr 1))
      = some ⟨"internal", 500, "boom; x", none⟩ := by decide
  rw [hv] at hr
  rw [← Option.some.inj hr] at hc
  exact absurd hc (by decide)

/-- C1 (amended): if `a` or `b`, once converted, has status 500 and the merge does not
have to write into a nil map (the metadata map of `a` is set, or `b` has no metadata entry),
`MergeErrors(a, b)` returns an error of status 500 whose code is the code of `a` when `a`
already had status 500 and "internal_error" otherwise. -/
theorem MergeErrors_internal (h : Heap) (a b : GoError) (ea eb : Error)
    (ha : converted h a = some ea) (hb : converted h b = some eb)
    (hs : ea.Status = 500 ∨ eb.Status = 500)
    (hm : ea.MetaValues ≠ none ∨ rangeOf eb.MetaValues = []) :
    ∃ r, resultOf (MergeErrors h a b) = some r ∧ r.Status = 500 ∧
      r.Code = if ea.Status = 500 then ea.Code else "internal_error" := by
  exact ⟨merged ea eb, resultOf_MergeErrors ha hb (not_nilMapWrite_of hm),
    (merged_of_internal hs).1, (merged_of_internal hs).2⟩

theorem MergeErrors_internal_witness :
    (converted [⟨"bad_request", 400, "x", none⟩] (.ptr 0) = some ⟨"bad_request", 400, "x", none⟩) ∧
    (converted [⟨"bad_request", 400, "x", none⟩] (.other "boom")
        = some ⟨"internal_error", 500, "boom", none⟩) ∧
    ∃ r, resultOf (MergeErrors [⟨"bad_request", 400, "x", none⟩] (.ptr 0) (.other "boom"))
        = some r ∧ r.Status = 500 ∧
      r.Code = if (400 : Int) = 500 then "bad_request" else "internal_error" :=
  ⟨rfl, rfl,
    MergeErrors_internal [⟨"bad_request", 400, "x", none⟩] (.ptr 0) (.other "boom")
      ⟨"bad_request", 400, "x", none⟩ ⟨"internal_error", 500, "boom", none⟩
      rfl rfl (Or.inr rfl) (Or.inr rfl)⟩

/-- C2 (failing input): `a` as built by `ErrBadRequest("x")`, whose `MetaValues` is nil, and
`b` a 404 "not_found" error carrying one metadata entry.  Neither has status 500 and they
differ, yet `MergeErrors(a, b)` returns no 400 "bad_request" error: it panics on the
assignment into the nil map of `a`. -/
theorem MergeErrors_mismatch_nil_map_panics :
    MergeErrors
      [⟨"bad_request", 400, "x", none⟩,
       ⟨"not_found", 404, "y", some (AList.insert "k" (.str "v") ∅)⟩]
      (.ptr 0) (.ptr 1) = .error .nilMapAssign := by
  rfl

/-- C3 (failing input): `a` an error that is not an `Error` (text "boom"), `b` an `Error`
carrying one metadata entry.  `asError(a)` has a nil `MetaValues`, so `MergeErrors(a, b)`
panics instead of returning an error with detail "boom; y". -/
theorem MergeErrors_detail_nil_map_panics :
    MergeErrors [⟨"bad_request", 400, "y", some (AList.insert "k" (.int 1) ∅)⟩]
      (.other "boom") (.ptr 0) = .error .nilMapAssign := by
  rfl

/-- C4 (failing input): for every error class, an error `a` fresh from its constructor
(`MetaValues` never set) and any `b` that carries a metadata entry, `MergeErrors(a, b)`
panics on the assignment into the nil map instead of returning the union of the metadata. -/
theorem MergeErrors_into_fresh_error_panics (sprintf : String → List Value → String)
    (code : String) (status : Int) (fm : Fm) (args : List Value)
    (b : Error) (k : String) (v : Value) (m : MetaMap) :
    MergeErrors
      ((NewErrorClass sprintf code status [] fm args).2
        ++ [{ b with MetaValues := some (m.insert k v) }])
      (.ptr 0) (.ptr 1) = .error .nilMapAssign := by
  have hr : rangeOf (some (m.insert k v)) ≠ [] := by
    simp [rangeOf, AList.insert_entries]
  have ha : converted ((NewErrorClass sprintf code status [] fm args).2
        ++ [{ b with MetaValues := some (m.insert k v) }]) (.ptr 0)
      = some ⟨code, status, (built (NewErrorClass sprintf code status [] fm args)).elim "" Error.Detail,
          none⟩ := rfl
  have hb : converted ((NewErrorClass sprintf code status [] fm args).2
        ++ [{ b with MetaValues := some (m.insert k v) }]) (.ptr 1)
      = some { b with MetaValues := some (m.insert k v) } := rfl
  exact MergeErrors_panic ha hb ⟨rfl, hr⟩

/-- C5: `MergeErrors(nil, b)` with `b` a `*Error` returns that very pointer and leaves the
heap as it was; with `b` any other error it returns a newly allocated `Error` of status 500,
code "internal_error" and detail `b.Error()`. -/
theorem MergeErrors_nil_left (h : Heap) (p : Nat) (msg : String) :
    MergeErrors h .nil (.ptr p) = .ok (.ptr p, h) ∧
    MergeErrors h .nil (.other msg)
      = .ok (.ptr h.length, h ++ [⟨"internal_error", 500, msg, none⟩]) ∧
    resultOf (MergeErrors h .nil (.other msg)) = some ⟨"internal_error", 500, msg, none⟩ := by
  refine ⟨rfl, rfl, ?_⟩
  show (h ++ [(⟨"internal_error", 500, msg, none⟩ : Error)])[h.length]? = _
  exact List.getElem?_concat_length h _

/-- C7: the constructor returned by `NewErrorClass(code, status)` returns an `Error` with
that code and status, whatever the format value and arguments; the predefined classes carry
the listed codes and statuses. -/
theorem NewErrorClass_code_status (sprintf : String → List Value → String)
    (code : String) (status : Int) (h : Heap) (fm : Fm) (v : List Value) :
    (built (NewErrorClass sprintf code status h fm v)).map (fun e => (e.Code, e.Status))
        = some (code, status) ∧
    (built (ErrBadRequest sprintf h fm v)).map (fun e => (e.Code, e.Status))
        = some ("bad_request", 400) ∧
    (built (ErrInvalidRequest sprintf h fm v)).map (fun e => (e.Code, e.Status))
        = some ("invalid_request", 400) ∧
    (built (ErrInvalidEncoding sprintf h fm v)).map (fun e => (e.Code, e.Status))
        = some ("invalid_encoding", 400) ∧
    (built (ErrRequestBodyTooLarge sprintf h fm v)).map (fun e => (e.Code, e.Status))
        = some ("request_too_large", 413) ∧
    (built (ErrNoSecurityScheme sprintf h fm v)).map (fun e => (e.Code, e.Status))
        = some ("no_security_scheme", 500) ∧
    (built (ErrInvalidFile sprintf h fm v)).map (fun e => (e.Code, e.Status))
        = some ("invalid_file", 400) ∧
    (built (ErrNotFound sprintf h fm v)).map (fun e => (e.Code, e.Status))
        = some ("not_found", 404) ∧
    (built (ErrInternal sprintf h fm v)).map (fun e => (e.Code, e.Status))
        = some ("internal", 500) := by
  have key : ∀ (c : String) (s : Int),
      (built (NewErrorClass sprintf c s h fm v)).map (fun e => (e.Code, e.Status))
        = some (c, s) := by
    intro c s
    simp [built, NewErrorClass, alloc]
  exact ⟨key _ _, key _ _, key _ _, key _ _, key _ _, key _ _, key _ _, key _ _, key _ _⟩

/-- C8 (failing input): on an error fresh from an error-class constructor, whose
`MetaValues` is nil, `Meta` with at least one key does not complete: the first assignment
`e.MetaValues[...] = v` panics. -/
theorem Meta_on_fresh_error_panics (sprintf : String → List Value → String)
    (code : String) (status : Int) (h : Heap) (fm : Fm) (args : List Value)
    (k : Value) (rest : List Value) :
    Error.Meta (NewErrorClass sprintf code status h fm args).2
      (NewErrorClass sprintf code status h fm args).1 (k :: rest)
      = .error .nilMapAssign := by
  have hm : ∀ (n : String) (v : Value),
      mapAssign (NewErrorClass sprintf code status h fm args).2
        (NewErrorClass sprintf code status h fm args).1 n v = .error .nilMapAssign := by
    intro n v
    simp [mapAssign, NewErrorClass, alloc]
  cases rest with
  | nil => simp [Error.Meta, metaLoop, hm]
  | cons v rest2 => simp [Error.Meta, metaLoop, hm]

/-! ## Accumulating a list of errors -/

theorem forall2_of_mem {α β : Type} {R S : α → β → Prop} {l1 : List α} {l2 : List β}
    (hf : List.Forall₂ R l1 l2) (himp : ∀ a b, a ∈ l1 → R a b → S a b) :
    List.Forall₂ S l1 l2 := by
  induction hf with
  | nil => exact List.Forall₂.nil
  | cons hab _ ih =>
    refine List.Forall₂.cons (himp _ _ (List.mem_cons_self _ _) hab) (ih ?_)
    intro a b ha hr
    exact himp a b (List.mem_cons_of_mem _ ha) hr

theorem converted_frame {h h9 : Heap} {pa : Nat} {x : GoError} {e : Error}
    (hne : x ≠ .ptr pa) (hx : converted h x = some e)
    (hfr : ∀ q, q < h.length → q ≠ pa → h9[q]? = h[q]?) : converted h9 x = some e := by
  cases x with
  | nil => simp [converted, asError] at hx
  | ptr q =>
    simp only [converted, asError] at hx ⊢
    obtain ⟨hlt, _⟩ := List.getElem?_eq_some_iff.mp hx
    have hq : q ≠ pa := fun hc => hne (by rw [hc])
    rw [hfr q hlt hq]; exact hx
  | other msg =>
    simp only [converted, asError, alloc] at hx ⊢
    rw [List.getElem?_concat_length] at hx ⊢
    exact hx

theorem accumulate_detail (rest : List GoError) :
    ∀ (es : List Error) (h : Heap) (pa : Nat) (ea : Error), h[pa]? = some ea →
      List.Forall₂ (fun x e => x ≠ .ptr pa ∧ converted h x = some e) rest es →
      (ea.MetaValues ≠ none ∨ ∀ e ∈ es, rangeOf e.MetaValues = []) →
      ∃ r, resultOf (accumulate h (.ptr pa) rest) = some r ∧
        r.Detail = String.intercalate.go ea.Detail "; " (es.map fun e => e.Detail) := by
  induction rest with
  | nil =>
    intro es h pa ea hpa hf _
    cases hf
    exact ⟨ea, by simpa [accumulate, resultOf] using hpa, rfl⟩
  | cons x rest ih =>
    intro es h pa ea hpa hf hm
    cases hf with
    | cons hxe hrest =>
      rename_i e es2
      have hca : converted h (.ptr pa) = some ea := by simpa [converted, asError] using hpa
      have hnw : ¬ nilMapWrite ea e := by
        apply not_nilMapWrite_of
        rcases hm with hm | hm
        · exact Or.inl hm
        · exact Or.inr (hm e (List.mem_cons_self _ _))
      obtain ⟨pe, h9, hr, hg, hwho, _, hfr⟩ := MergeErrors_ok hca hxe.2 hnw
      have hpe : pe = pa := by
        rcases hwho with hw | ⟨⟨msg, hw⟩, _⟩
        · exact (GoError.ptr.inj hw).symm
        · cases hw
      subst hpe
      have hf9 : List.Forall₂ (fun y e2 => y ≠ .ptr pe ∧ converted h9 y = some e2) rest es2 :=
        List.Forall₂.imp (fun y e2 hy => ⟨hy.1, converted_frame hy.1 hy.2 hfr⟩) hrest
      have hm9 : (merged ea e).MetaValues ≠ none ∨ ∀ e2 ∈ es2, rangeOf e2.MetaValues = [] := by
        rcases hm with hm | hm
        · left
          cases hmv : ea.MetaValues with
          | none => exact absurd hmv hm
          | some m => simp [merged, hmv]
        · right
          intro e2 he2
          exact hm e2 (List.mem_cons_of_mem _ he2)
      obtain ⟨r, hres, hd⟩ := ih es2 h9 pe (merged ea e) hg hf9 hm9
      refine ⟨r, ?_, ?_⟩
      · simpa [accumulate, hr] using hres
      · rw [hd]; rfl

/-- C6 (as stated) fails: with `A` as built by `ErrBadRequest("x")` and `B` by
`ErrBadRequest("y")`, accumulating the list `A, B, A` merges `A` into itself after `B` was
merged into it in place; the detail is "x; y; x; y", not "x; y; x". -/
theorem accumulate_repeated_first_counterexample :
    ([GoError.ptr 0, .ptr 1, .ptr 0].map
        (converted [⟨"bad_request", 400, "x", none⟩, ⟨"bad_request", 400, "y", none⟩])
      = [some ⟨"bad_request", 400, "x", none⟩, some ⟨"bad_request", 400, "y", none⟩,
          some ⟨"bad_request", 400, "x", none⟩]) ∧
    ¬ ∃ r, resultOf (accumulate
          [⟨"bad_request", 400, "x", none⟩, ⟨"bad_request", 400, "y", none⟩] .nil
          [.ptr 0, .ptr 1, .ptr 0]) = some r ∧
        r.Detail = "; ".intercalate ["x", "y", "x"] := by
  refine ⟨rfl, ?_⟩
  rintro ⟨r, hr, hd⟩
  have hv : resultOf (accumulate
      [⟨"bad_request", 400, "x", none⟩, ⟨"bad_request", 400, "y", none⟩] .nil
      [.ptr 0, .ptr 1, .ptr 0]) = some ⟨"bad_request", 400, "x; y; x; y", none⟩ := by decide
  rw [hv] at hr
  rw [← Option.some.inj hr] at hd
  exact absurd hd (by decide)

/-- C6 (amended): for a non-empty list of non-nil errors in which the first error is not
listed again, and whose merges never write into a nil map (the metadata map of the first
error is set, or no later error has a metadata entry), the left-to-right accumulation by
`MergeErrors` from nil returns an error whose detail is the details of the listed errors, in
list order, joined by "; ". -/
theorem accumulate_joins_details (h : Heap) (x : GoError) (rest : List GoError)
    (e : Error) (es : List Error)
    (hx : converted h x = some e)
    (hrest : List.Forall₂ (fun y e2 => converted h y = some e2) rest es)
    (hfirst : ∀ p, x = .ptr p → GoError.ptr p ∉ rest)
    (hm : e.MetaValues ≠ none ∨ ∀ e2 ∈ es, rangeOf e2.MetaValues = []) :
    ∃ r, resultOf (accumulate h .nil (x :: rest)) = some r ∧
      r.Detail = "; ".intercalate ((e :: es).map fun e2 => e2.Detail) := by
  obtain ⟨pe, h1, e1, g1, ⟨ext, x1⟩, hwho⟩ := asError_spec hx
  have hstep : MergeErrors h .nil x = .ok (.ptr pe, h1) := by
    cases x with
    | nil => exact absurd rfl (converted_ne_nil hx)
    | ptr p => simp only [MergeErrors, e1]
    | other msg => simp only [MergeErrors, e1]
  have hf1 : List.Forall₂ (fun y e2 => y ≠ .ptr pe ∧ converted h1 y = some e2) rest es := by
    refine forall2_of_mem hrest ?_
    intro y e2 hy hc
    refine ⟨?_, by rw [x1]; exact converted_append ext hc⟩
    rintro rfl
    rcases hwho with hw | ⟨_, hw⟩
    · exact hfirst pe hw hy
    · subst hw
      simp [converted, asError] at hc
  obtain ⟨r, hres, hd⟩ := accumulate_detail rest es h1 pe e g1 hf1 hm
  refine ⟨r, ?_, ?_⟩
  · simpa [accumulate, hstep] using hres
  · rw [hd]; rfl

theorem accumulate_joins_details_witness :
    (converted [⟨"bad_request", 400, "x", none⟩, ⟨"not_found", 404, "y", none⟩] (.ptr 0)
      = some ⟨"bad_request", 400, "x", none⟩) ∧
    ∃ r, resultOf (accumulate
          [⟨"bad_request", 400, "x", none⟩, ⟨"not_found", 404, "y", none⟩] .nil
          [.ptr 0, .ptr 1, .other "boom", .ptr 1]) = some r ∧
      r.Detail = "; ".intercalate
        (([⟨"bad_request", 400, "x", none⟩, ⟨"not_found", 404, "y", none⟩,
            ⟨"internal_error", 500, "boom", none⟩, ⟨"not_found", 404, "y", none⟩] :
            List Error).map fun e2 => e2.Detail) :=
  ⟨rfl,
    accumulate_joins_details
      [⟨"bad_request", 400, "x", none⟩, ⟨"not_found", 404, "y", none⟩] (.ptr 0)
      [.ptr 1, .other "boom", .ptr 1] ⟨"bad_request", 400, "x", none⟩
      [⟨"not_found", 404, "y", none⟩, ⟨"internal_error", 500, "boom", none⟩,
        ⟨"not_found", 404, "y", none⟩]
      rfl
      (List.Forall₂.cons rfl (List.Forall₂.cons rfl (List.Forall₂.cons rfl List.Forall₂.nil)))
      (by intro p hp; cases hp; decide)
      (Or.inr (by intro e2 he2; simp at he2; rcases he2 with rfl | rfl | rfl <;> rfl))⟩

end Goa

namespace Expr

/-! ## Claims on response validation -/

set_option maxRecDepth 20000 in
/-- The model agrees with every case of `TestHTTPResponseValidation`: the designs expected
to be valid give no diagnostic, the others give exactly the expected error text. -/
theorem Validate_agrees_with_test_cases :
    Validate "EmptyResultEmptyResponse" "Method" .empty [] ⟨200, none, [], false, false⟩ = [] ∧
    Validate "NonEmptyResultEmptyResponse" "Method" (.primitive .string) []
        ⟨200, none, [], false, false⟩ = [] ∧
    Validate "EmptyResultNonEmptyResponse" "Method" .empty [] ⟨200, none, [], false, false⟩
        = [] ∧
    Validate "StringResultResponseWithHeaders" "Method" (.primitive .string) []
        ⟨200, none, [⟨"Location", "Location"⟩], false, false⟩ = [] ∧
    Validate "StringResultResponseWithHeaders" "Method" (.primitive .string) []
        ⟨200, some "text/plain", [], false, false⟩ = [] ∧
    Validate "ObjectResultResponseWithHeaders" "Method" (.object [("foo", .primitive .string)])
        [] ⟨200, none, [⟨"Location", "foo"⟩], false, false⟩ = [] ∧
    Validate "ArrayResultResponseWithHeaders" "Method"
        (.object [("foo", .array (.primitive .string))]) []
        ⟨200, none, [⟨"Location", "foo"⟩], false, false⟩ = [] ∧
    report (Validate "MapResultResponseWithHeaders" "Method"
        (.object [("foo", .map (.primitive .string) (.primitive .string))]) []
        ⟨200, none, [⟨"Location", "foo"⟩], false, false⟩)
      = "service \"MapResultResponseWithHeaders\" HTTP endpoint \"Method\": attribute \"foo\" used in HTTP headers must be a primitive type or an array of primitive types." ∧
    report (Validate "EmptyResultResponseWithHeaders" "Method" .empty []
        ⟨200, none, [⟨"Location", "foo"⟩], false, false⟩)
      = "HTTP response of service \"EmptyResultResponseWithHeaders\" HTTP endpoint \"Method\": response defines headers but result is empty" ∧
    report (Validate "ArrayObjectResultResponseWithHeaders" "Method"
        (.object [("foo", .object [("bar", .primitive .string), ("baz", .primitive .string)])])
        [] ⟨200, none, [⟨"Location", "foo"⟩], false, false⟩)
      = "service \"ArrayObjectResultResponseWithHeaders\" HTTP endpoint \"Method\": attribute \"foo\" used in HTTP headers must be a primitive type or an array of primitive types." ∧
    report (Validate "ArrayObjectResultResponseWithHeaders" "Method"
        (.array (.userType "Obj" (.object [("foo", .primitive .string)]))) []
        ⟨200, none, [⟨"Location", "foo"⟩], false, false⟩)
      = "service \"ArrayObjectResultResponseWithHeaders\" HTTP endpoint \"Method\": Array result is mapped to an HTTP header but is not an array of primitive types." ∧
    report (Validate "StringResultResponseWithHeaders" "Method" (.primitive .int) []
        ⟨200, some "text/plain", [], false, false⟩)
      = "HTTP response of service \"StringResultResponseWithHeaders\" HTTP endpoint \"Method\": Result type must be String or Bytes when ContentType is \x27text/plain\x27" ∧
    report (Validate "MissingHeaderResultAttribute" "Method"
        (.object [("foo", .primitive .string)]) []
        ⟨200, none, [⟨"bar", "bar"⟩], false, false⟩)
      = "HTTP response of service \"MissingHeaderResultAttribute\" HTTP endpoint \"Method\": header \"bar\" has no equivalent attribute in result type, use notation \x27attribute_name:header_name\x27 to identify corresponding result type attribute.\nservice \"MissingHeaderResultAttribute\" HTTP endpoint \"Method\": attribute \"bar\" used in HTTP headers must be a primitive type or an array of primitive types." ∧
    report (Validate "SkipEncodeAndGRPC" "Method" (.object [("foo", .primitive .string)]) []
        ⟨200, none, [⟨"foo", "foo"⟩], true, true⟩)
      = "service \"SkipEncodeAndGRPC\" HTTP endpoint \"Method\": Endpoint response cannot use SkipResponseBodyEncodeDecode and define a gRPC transport." := by
  refine ⟨?_, ?_, ?_, ?_, ?_, ?_, ?_, ?_, ?_, ?_, ?_, ?_, ?_, ?_⟩ <;> decide

theorem ruleResolution_empty (svc ep : String) (result : ResultType) (resp : ResponseDescriptor)
    (hres : resolveType result = .empty) : ruleResolution svc ep result resp = [] := by
  simp [ruleResolution, hres]

theorem ruleHeaderType_empty (svc ep : String) (result : ResultType) (resp : ResponseDescriptor)
    (hres : resolveType result = .empty) : ruleHeaderType svc ep result resp = [] := by
  simp [ruleHeaderType, hres]

/-- C9: when the result is empty and the response defines at least one header binding,
validation fails; its first diagnostic is "response defines headers but result is empty",
attributed as `HTTP response of service "<service>" HTTP endpoint "<endpoint>": ...`, and
only the content-type and transport rules can add to it. -/
theorem Validate_empty_result_with_headers (svc ep : String) (result : ResultType)
    (views : List View) (resp : ResponseDescriptor)
    (hres : resolveType result = .empty) (hh : resp.Headers ≠ []) :
    Validate svc ep result views resp
      = ⟨true, svc, ep, "response defines headers but result is empty"⟩
          :: (ruleTextPlain svc ep result resp ++ ruleExclusive svc ep resp) ∧
    Validate svc ep result views resp ≠ [] ∧
    (⟨true, svc, ep, "response defines headers but result is empty"⟩ : Diagnostic).text
      = "HTTP response of service " ++ quote svc ++ " HTTP endpoint " ++ quote ep ++ ": "
          ++ "response defines headers but result is empty" := by
  have hv : Validate svc ep result views resp
      = ⟨true, svc, ep, "response defines headers but result is empty"⟩
          :: (ruleTextPlain svc ep result resp ++ ruleExclusive svc ep resp) := by
    unfold Validate
    rw [ruleResolution_empty svc ep result resp hres, ruleHeaderType_empty svc ep result resp hres]
    cases hhd : resp.Headers with
    | nil => exact absurd hhd hh
    | cons b bs => simp [ruleEmptyResult, hres, hhd, msgEmptyResult]
  refine ⟨hv, ?_, rfl⟩
  rw [hv]; exact List.cons_ne_nil _ _

theorem Validate_empty_result_with_headers_witness :
    resolveType .empty = .empty ∧
    Validate "EmptyResultResponseWithHeaders" "Method" .empty []
        ⟨200, none, [⟨"Location", "foo"⟩], false, false⟩
      = [⟨true, "EmptyResultResponseWithHeaders", "Method",
          "response defines headers but result is empty"⟩] ∧
    (⟨true, "EmptyResultResponseWithHeaders", "Method",
        "response defines headers but result is empty"⟩ : Diagnostic).text
      = "HTTP response of service \"EmptyResultResponseWithHeaders\" HTTP endpoint \"Method\": response defines headers but result is empty" := by
  have hw := Validate_empty_result_with_headers "EmptyResultResponseWithHeaders" "Method"
    .empty [] ⟨200, none, [⟨"Location", "foo"⟩], false, false⟩ rfl (by simp)
  exact ⟨rfl, hw.1, by decide⟩

/-- C10 (as stated) fails where the whole result is an array of objects mapped to a header:
for the design of the test case "array of object in header" the only diagnostic is
"Array result is mapped to an HTTP header but is not an array of primitive types.", and no
diagnostic `attribute "foo" used in HTTP headers must be ...` is reported. -/
theorem Validate_array_of_object_result_counterexample :
    Validate "ArrayObjectResultResponseWithHeaders" "Method"
        (.array (.userType "Obj" (.object [("foo", .primitive .string)]))) []
        ⟨200, none, [⟨"Location", "foo"⟩], false, false⟩
      = [⟨false, "ArrayObjectResultResponseWithHeaders", "Method",
          "Array result is mapped to an HTTP header but is not an array of primitive types."⟩] ∧
    ¬ ∃ d ∈ Validate "ArrayObjectResultResponseWithHeaders" "Method"
        (.array (.userType "Obj" (.object [("foo", .primitive .string)]))) []
        ⟨200, none, [⟨"Location", "foo"⟩], false, false⟩,
      d.Message = "attribute \"foo\" used in HTTP headers must be a primitive type or an array of primitive types." := by
  have hv : Validate "ArrayObjectResultResponseWithHeaders" "Method"
        (.array (.userType "Obj" (.object [("foo", .primitive .string)]))) []
        ⟨200, none, [⟨"Location", "foo"⟩], false, false⟩
      = [⟨false, "ArrayObjectResultResponseWithHeaders", "Method",
          "Array result is mapped to an HTTP header but is not an array of primitive types."⟩] := by
    decide
  refine ⟨hv, ?_⟩
  rw [hv]
  decide

theorem mem_Validate_of_mem_ruleHeaderType {svc ep : String} {result : ResultType}
    {views : List View} {resp : ResponseDescriptor} {d : Diagnostic}
    (hd : d ∈ ruleHeaderType svc ep result resp) : d ∈ Validate svc ep result views resp := by
  simp only [Validate, List.mem_append]
  exact Or.inl (Or.inl (Or.inr hd))

theorem not_legal_of_shape {t : ResultType}
    (hk : (∃ attrs, resolveType t = .object attrs) ∨ (∃ k v, resolveType t = .map k v) ∨
      (∃ el attrs, resolveType t = .array el ∧ resolveType el = .object attrs)) :
    legalHeaderType t = false := by
  rcases hk with ⟨attrs, h⟩ | ⟨k, v, h⟩ | ⟨el, attrs, h, h2⟩
  · simp [legalHeaderType, isPrimitive, isArrayOfPrimitive, h]
  · simp [legalHeaderType, isPrimitive, isArrayOfPrimitive, h]
  · simp [legalHeaderType, isPrimitive, isArrayOfPrimitive, h, h2]

/-- C10 (amended): on an object result, every header binding whose attribute resolves to
an object, a map (whatever its key and value types) or an array of objects makes validation
report `attribute "<name>" used in HTTP headers must be a primitive type or an array of
primitive types.`; when the whole result is an array of objects and the response defines a
header, validation reports instead "Array result is mapped to an HTTP header but is not an
array of primitive types.". -/
theorem Validate_illegal_header_type (svc ep : String) (views : List View)
    (result : ResultType) (attrs : List (String × ResultType)) (resp : ResponseDescriptor)
    (b : HeaderBinding) (t : ResultType)
    (result2 el : ResultType) (attrs2 : List (String × ResultType)) (resp2 : ResponseDescriptor)
    (hobj : resolveType result = .object attrs) (hb : b ∈ resp.Headers)
    (ht : attrs.lookup b.AttributeName = some t)
    (hk : (∃ as, resolveType t = .object as) ∨ (∃ k v, resolveType t = .map k v) ∨
      (∃ e2 as, resolveType t = .array e2 ∧ resolveType e2 = .object as))
    (harr : resolveType result2 = .array el) (hel : resolveType el = .object attrs2)
    (hh : resp2.Headers ≠ []) :
    (⟨false, svc, ep, "attribute " ++ quote b.AttributeName
        ++ " used in HTTP headers must be a primitive type or an array of primitive types."⟩
      ∈ Validate svc ep result views resp) ∧
    (⟨false, svc, ep,
        "Array result is mapped to an HTTP header but is not an array of primitive types."⟩
      ∈ Validate svc ep result2 views resp2) := by
  constructor
  · apply mem_Validate_of_mem_ruleHeaderType
    simp only [ruleHeaderType, hobj, List.mem_flatMap]
    refine ⟨b, hb, ?_⟩
    simp [ht, not_legal_of_shape hk, msgHeaderType]
  · apply mem_Validate_of_mem_ruleHeaderType
    cases hhd : resp2.Headers with
    | nil => exact absurd hhd hh
    | cons b2 bs => simp [ruleHeaderType, harr, isPrimitive, hel, hhd, msgArrayResult]

theorem Validate_illegal_header_type_witness :
    (⟨false, "MapResultResponseWithHeaders", "Method", "attribute " ++ quote "foo"
        ++ " used in HTTP headers must be a primitive type or an array of primitive types."⟩
      ∈ Validate "MapResultResponseWithHeaders" "Method"
          (.object [("foo", .map (.primitive .string) (.primitive .string))]) []
          ⟨200, none, [⟨"Location", "foo"⟩], false, false⟩) ∧
    (⟨false, "MapResultResponseWithHeaders", "Method",
        "Array result is mapped to an HTTP header but is not an array of primitive types."⟩
      ∈ Validate "MapResultResponseWithHeaders" "Method"
          (.array (.userType "Obj" (.object [("foo", .primitive .string)]))) []
          ⟨200, none, [⟨"Location", "foo"⟩], false, false⟩) :=
  Validate_illegal_header_type "MapResultResponseWithHeaders" "Method" []
    (.object [("foo", .map (.primitive .string) (.primitive .string))])
    [("foo", .map (.primitive .string) (.primitive .string))]
    ⟨200, none, [⟨"Location", "foo"⟩], false, false⟩ ⟨"Location", "foo"⟩
    (.map (.primitive .string) (.primitive .string))
    (.array (.userType "Obj" (.object [("foo", .primitive .string)])))
    (.userType "Obj" (.object [("foo", .primitive .string)]))
    [("foo", .primitive .string)]
    ⟨200, none, [⟨"Location", "foo"⟩], false, false⟩
    rfl (by simp) rfl (Or.inr (Or.inl ⟨_, _, rfl⟩)) rfl rfl (by simp)

/-! ## Legal header bindings, content type, transport exclusivity, aggregation -/

theorem legal_whole_result {result : ResultType} (hl : legalHeaderType result = true) :
    (∃ p, resolveType result = .primitive p) ∨
      (∃ el, resolveType result = .array el ∧ isPrimitive el = true) := by
  unfold legalHeaderType isPrimitive isArrayOfPrimitive at hl
  cases hr : resolveType result with
  | primitive p => exact Or.inl ⟨p, rfl⟩
  | array el =>
    right
    refine ⟨el, rfl, ?_⟩
    simpa [hr, isPrimitive] using hl
  | empty => simp [hr] at hl
  | object attrs => simp [hr] at hl
  | map k v => simp [hr] at hl
  | userType n d => simp [hr] at hl

/-- C11: a header binding that resolves to a primitive or to an array of primitives (an
attribute of an object result with such a type, or a bare binding on a result that is itself
such a type) adds no diagnostic: the resolution rule and the header-type rule report exactly
what they report without that binding.  The three designs of the claim validate without
error. -/
theorem Validate_legal_header_binding (svc ep : String) (result : ResultType)
    (views : List View) (resp : ResponseDescriptor)
    (pre post : List HeaderBinding) (b : HeaderBinding)
    (hh : resp.Headers = pre ++ b :: post)
    (hres : (∃ attrs t, resolveType result = .object attrs ∧
          attrs.lookup b.AttributeName = some t ∧ legalHeaderType t = true) ∨
        (legalHeaderType result = true ∧ b.isBare = true)) :
    ruleResolution svc ep result resp
        = ruleResolution svc ep result { resp with Headers := pre ++ post } ∧
    ruleHeaderType svc ep result resp
        = ruleHeaderType svc ep result { resp with Headers := pre ++ post } ∧
    Validate svc ep (.object [("foo", .primitive .string)]) views
        ⟨200, none, [⟨"Location", "foo"⟩], false, false⟩ = [] ∧
    Validate svc ep (.object [("foo", .array (.primitive .string))]) views
        ⟨200, none, [⟨"Location", "foo"⟩], false, false⟩ = [] ∧
    Validate svc ep (.primitive .string) views
        ⟨200, none, [⟨"Location", "Location"⟩], false, false⟩ = [] := by
  refine ⟨?_, ?_, rfl, rfl, rfl⟩
  · rcases hres with ⟨attrs, t, ho, hl, _⟩ | ⟨hl, hb⟩
    · simp [ruleResolution, hh, ho, hl]
    · rcases legal_whole_result hl with ⟨p, hp⟩ | ⟨el, he, hel⟩
      · simp [ruleResolution, hh, hp, hb]
      · simp [ruleResolution, hh, he, hel, hb]
  · rcases hres with ⟨attrs, t, ho, hl, hlegal⟩ | ⟨hl, hb⟩
    · simp [ruleHeaderType, hh, ho, hl, hlegal]
    · rcases legal_whole_result hl with ⟨p, hp⟩ | ⟨el, he, hel⟩
      · simp [ruleHeaderType, hp]
      · simp [ruleHeaderType, he, hel]

theorem Validate_legal_header_binding_witness :
    ruleResolution "S" "Method" (.object [("foo", .primitive .string)])
        ⟨200, none, [⟨"Location", "foo"⟩], false, false⟩ = [] ∧
    ruleHeaderType "S" "Method" (.object [("foo", .primitive .string)])
        ⟨200, none, [⟨"Location", "foo"⟩], false, false⟩ = [] ∧
    Validate "S" "Method" (.object [("foo", .primitive .string)]) []
        ⟨200, none, [⟨"Location", "foo"⟩], false, false⟩ = [] := by
  have hw := Validate_legal_header_binding "S" "Method" (.object [("foo", .primitive .string)])
    [] ⟨200, none, [⟨"Location", "foo"⟩], false, false⟩ [] [] ⟨"Location", "foo"⟩ rfl
    (Or.inl ⟨[("foo", .primitive .string)], .primitive .string, rfl, rfl, rfl⟩)
  exact ⟨hw.1, hw.2.1, hw.2.2.1⟩

/-- C12 (as stated) fails: a String result with content type `text/plain` has a body type
that is exactly String, yet validation does not succeed when the endpoint also skips body
coding and defines a gRPC transport: rule 5 reports its diagnostic whatever the content
type is. -/
theorem Validate_text_plain_string_counterexample :
    isStringOrBytes (bodyType (.primitive .string)
        ⟨200, some "text/plain", [], true, true⟩) = true ∧
    Validate "S" "Method" (.primitive .string) [] ⟨200, some "text/plain", [], true, true⟩
      = [⟨false, "S", "Method",
          "Endpoint response cannot use SkipResponseBodyEncodeDecode and define a gRPC transport."⟩] ∧
    Validate "S" "Method" (.primitive .string) [] ⟨200, some "text/plain", [], true, true⟩
      ≠ [] := by
  refine ⟨rfl, by decide, by decide⟩

theorem mem_Validate_of_mem_ruleTextPlain {svc ep : String} {result : ResultType}
    {views : List View} {resp : ResponseDescriptor} {d : Diagnostic}
    (hd : d ∈ ruleTextPlain svc ep result resp) : d ∈ Validate svc ep result views resp := by
  simp only [Validate, List.mem_append]
  exact Or.inl (Or.inr hd)

/-- C12 (amended): for a response whose content type is `text/plain`, the content-type rule
reports nothing if and only if the body-carrying type is exactly String or Bytes; any other
body type makes validation fail with the message "Result type must be String or Bytes when
ContentType is 'text/plain'"; and validation as a whole succeeds if and only if the body type
is String or Bytes and no other rule reports a diagnostic. -/
theorem Validate_text_plain (svc ep : String) (result : ResultType) (views : List View)
    (resp : ResponseDescriptor) (hct : resp.ContentType = some "text/plain") :
    (ruleTextPlain svc ep result resp = [] ↔ isStringOrBytes (bodyType result resp) = true) ∧
    (isStringOrBytes (bodyType result resp) = false →
      (⟨true, svc, ep, "Result type must be String or Bytes when ContentType is \x27text/plain\x27"⟩
          : Diagnostic) ∈ Validate svc ep result views resp ∧
        Validate svc ep result views resp ≠ []) ∧
    (Validate svc ep result views resp = [] ↔
      isStringOrBytes (bodyType result resp) = true ∧
        ruleEmptyResult svc ep result resp = [] ∧ ruleResolution svc ep result resp = [] ∧
        ruleHeaderType svc ep result resp = [] ∧ ruleExclusive svc ep resp = []) := by
  have h1 : ruleTextPlain svc ep result resp = [] ↔
      isStringOrBytes (bodyType result resp) = true := by
    unfold ruleTextPlain
    rw [if_pos hct]
    cases hb : isStringOrBytes (bodyType result resp) <;> simp
  refine ⟨h1, ?_, ?_⟩
  · intro hb
    have hm : (⟨true, svc, ep, msgTextPlain⟩ : Diagnostic) ∈ ruleTextPlain svc ep result resp := by
      unfold ruleTextPlain
      rw [if_pos hct, hb]
      simp
    have hv : (⟨true, svc, ep, msgTextPlain⟩ : Diagnostic) ∈ Validate svc ep result views resp :=
      mem_Validate_of_mem_ruleTextPlain hm
    exact ⟨hv, List.ne_nil_of_mem hv⟩
  · simp only [Validate, List.append_eq_nil, h1]
    tauto

theorem Validate_text_plain_witness :
    (ruleTextPlain "StringResultResponseWithHeaders" "Method" (.primitive .int)
        ⟨200, some "text/plain", [], false, false⟩ = [] ↔
      isStringOrBytes (bodyType (.primitive .int) ⟨200, some "text/plain", [], false, false⟩)
        = true) ∧
    ((⟨true, "StringResultResponseWithHeaders", "Method",
        "Result type must be String or Bytes when ContentType is \x27text/plain\x27"⟩ : Diagnostic)
      ∈ Validate "StringResultResponseWithHeaders" "Method" (.primitive .int) []
          ⟨200, some "text/plain", [], false, false⟩) := by
  have hw := Validate_text_plain "StringResultResponseWithHeaders" "Method" (.primitive .int) []
    ⟨200, some "text/plain", [], false, false⟩ rfl
  exact ⟨hw.1, (hw.2.1 rfl).1⟩

/-- C13: when the endpoint both skips response body encoding and decoding and defines a gRPC
transport, validation fails: whatever the result type, headers and content type are, the
last diagnostic is "Endpoint response cannot use SkipResponseBodyEncodeDecode and define a
gRPC transport.", attributed as `service "<service>" HTTP endpoint "<endpoint>": ...`. -/
theorem Validate_skip_and_grpc (svc ep : String) (result : ResultType) (views : List View)
    (resp : ResponseDescriptor)
    (hs : resp.SkipBodyCoding = true) (hg : resp.HasGRPCTransport = true) :
    Validate svc ep result views resp
      = ruleEmptyResult svc ep result resp ++ ruleResolution svc ep result resp
          ++ ruleHeaderType svc ep result resp ++ ruleTextPlain svc ep result resp
          ++ [⟨false, svc, ep,
            "Endpoint response cannot use SkipResponseBodyEncodeDecode and define a gRPC transport."⟩] ∧
    (⟨false, svc, ep,
        "Endpoint response cannot use SkipResponseBodyEncodeDecode and define a gRPC transport."⟩
      : Diagnostic) ∈ Validate svc ep result views resp ∧
    Validate svc ep result views resp ≠ [] ∧
    (⟨false, svc, ep,
        "Endpoint response cannot use SkipResponseBodyEncodeDecode and define a gRPC transport."⟩
      : Diagnostic).text
      = "service " ++ quote svc ++ " HTTP endpoint " ++ quote ep ++ ": "
          ++ "Endpoint response cannot use SkipResponseBodyEncodeDecode and define a gRPC transport." := by
  have hv : Validate svc ep result views resp
      = ruleEmptyResult svc ep result resp ++ ruleResolution svc ep result resp
          ++ ruleHeaderType svc ep result resp ++ ruleTextPlain svc ep result resp
          ++ [⟨false, svc, ep, msgSkipGRPC⟩] := by
    simp [Validate, ruleExclusive, hs, hg]
  have hm : (⟨false, svc, ep, msgSkipGRPC⟩ : Diagnostic) ∈ Validate svc ep result views resp := by
    rw [hv]; simp
  exact ⟨hv, hm, List.ne_nil_of_mem hm, rfl⟩

theorem Validate_skip_and_grpc_witness :
    Validate "SkipEncodeAndGRPC" "Method" (.object [("foo", .primitive .string)]) []
        ⟨200, none, [⟨"foo", "foo"⟩], true, true⟩
      = [⟨false, "SkipEncodeAndGRPC", "Method",
          "Endpoint response cannot use SkipResponseBodyEncodeDecode and define a gRPC transport."⟩] :=
  (Validate_skip_and_grpc "SkipEncodeAndGRPC" "Method" (.object [("foo", .primitive .string)]) []
    ⟨200, none, [⟨"foo", "foo"⟩], true, true⟩ rfl rfl).1

/-- C14: validation does not stop at the first violated rule: for every result and response
the diagnostics are those of all five rules in rule order, and the reported text joins them
with a newline.  For an
object result without the attribute of a bare header binding "bar" (no `text/plain` content
type, no skip-and-gRPC conflict) the report is the unresolved-header diagnostic, prefixed
`HTTP response of service ...`, a newline, and the header-type diagnostic for attribute
"bar", prefixed `service ...`, and nothing else. -/
theorem Validate_reports_all_rules (svc ep : String) (result : ResultType) (views : List View)
    (resp : ResponseDescriptor) (attrs : List (String × ResultType))
    (hobj : resolveType result = .object attrs) (hbar : attrs.lookup "bar" = none)
    (hh : resp.Headers = [⟨"bar", "bar"⟩]) (hct : resp.ContentType ≠ some "text/plain")
    (hx : (resp.SkipBodyCoding && resp.HasGRPCTransport) = false) :
    (∀ (res2 : ResultType) (rsp2 : ResponseDescriptor) (d : Diagnostic),
      d ∈ Validate svc ep res2 views rsp2 ↔
        d ∈ ruleEmptyResult svc ep res2 rsp2 ∨ d ∈ ruleResolution svc ep res2 rsp2 ∨
          d ∈ ruleHeaderType svc ep res2 rsp2 ∨ d ∈ ruleTextPlain svc ep res2 rsp2 ∨
          d ∈ ruleExclusive svc ep rsp2) ∧
    (∀ (res2 : ResultType) (rsp2 : ResponseDescriptor),
      report (Validate svc ep res2 views rsp2)
        = "\n".intercalate (List.map Diagnostic.text
            (ruleEmptyResult svc ep res2 rsp2 ++ ruleResolution svc ep res2 rsp2
              ++ ruleHeaderType svc ep res2 rsp2 ++ ruleTextPlain svc ep res2 rsp2
              ++ ruleExclusive svc ep rsp2))) ∧
    Validate svc ep result views resp
      = [⟨true, svc, ep, msgNoAttribute "bar"⟩, ⟨false, svc, ep, msgHeaderType "bar"⟩] ∧
    report (Validate svc ep result views resp)
      = ("HTTP response of service " ++ quote svc ++ " HTTP endpoint " ++ quote ep ++ ": "
            ++ msgNoAttribute "bar")
          ++ "\n"
          ++ ("service " ++ quote svc ++ " HTTP endpoint " ++ quote ep ++ ": "
            ++ msgHeaderType "bar") := by
  have hv : Validate svc ep result views resp
      = [⟨true, svc, ep, msgNoAttribute "bar"⟩, ⟨false, svc, ep, msgHeaderType "bar"⟩] := by
    simp [Validate, ruleEmptyResult, ruleResolution, ruleHeaderType, ruleTextPlain,
      ruleExclusive, hobj, hbar, hh, hct, hx]
  refine ⟨?_, fun _ _ => rfl, hv, ?_⟩
  · intro res2 rsp2 d
    simp only [Validate, List.mem_append]
    tauto
  · rw [hv]; rfl

set_option maxRecDepth 20000 in
theorem Validate_reports_all_rules_witness :
    report (Validate "MissingHeaderResultAttribute" "Method"
        (.object [("foo", .primitive .string)]) []
        ⟨200, none, [⟨"bar", "bar"⟩], false, false⟩)
      = "HTTP response of service \"MissingHeaderResultAttribute\" HTTP endpoint \"Method\": header \"bar\" has no equivalent attribute in result type, use notation \x27attribute_name:header_name\x27 to identify corresponding result type attribute.\nservice \"MissingHeaderResultAttribute\" HTTP endpoint \"Method\": attribute \"bar\" used in HTTP headers must be a primitive type or an array of primitive types." := by
  have hw := Validate_reports_all_rules "MissingHeaderResultAttribute" "Method"
    (.object [("foo", .primitive .string)]) [] ⟨200, none, [⟨"bar", "bar"⟩], false, false⟩
    [("foo", .primitive .string)] rfl rfl rfl (by decide) rfl
  rw [hw.2.2.2]
  decide

end Expr

namespace Testdata

/-! ## Claims on the generated decoders -/

theorem readAndRestore_ok {restoreBody : Bool} {resp r1 : Response}
    (h : readAndRestore restoreBody resp = .ok r1) :
    r1.StatusCode = resp.StatusCode ∧ r1.Header = resp.Header ∧
      r1.Body.data = resp.Body.data := by
  unfold readAndRestore at h
  split at h
  · split at h
    · cases h
    · cases h; exact ⟨rfl, rfl, rfl⟩
  · cases h; exact ⟨rfl, rfl, rfl⟩

theorem switchView_eq {β π : Type} (svc method : String)
    (newDefault newTiny : β → Resulttypemultipleviews π) (view : String) (body : β) :
    switchView svc method newDefault newTiny view body
      = if view = "" ∨ view = "default" then .ok (newDefault body)
        else if view = "tiny" then .ok (newTiny body)
        else .error (.ErrValidationError svc method (.unknownView view)) := by
  unfold switchView
  by_cases h1 : view = "default" <;> by_cases h2 : view = "" <;> simp [h1, h2]

/-- C15 (as stated) fails for the decoder generated for the same multiple-view result with
an explicit user type body: on a response of declared status 200 with a decodable body and
the unknown view "bogus" in "goa-view" it does not fail with an unknown-view error, it
returns a result; the same result as for "tiny" and for no "goa-view" header at all. -/
theorem Decode_explicit_body_unknown_view_counterexample :
    DecodeMethodExplicitBodyUserResultMultipleViewResponse sampleUserOK sampleDecoder false
        ⟨200, [("goa-view", "bogus"), ("Location", "/x")], ⟨"ab", none⟩⟩
      = .ok ("", "ab", some "/x") ∧
    DecodeMethodExplicitBodyUserResultMultipleViewResponse sampleUserOK sampleDecoder false
        ⟨200, [("goa-view", "tiny"), ("Location", "/x")], ⟨"ab", none⟩⟩
      = .ok ("", "ab", some "/x") ∧
    DecodeMethodExplicitBodyUserResultMultipleViewResponse sampleUserOK sampleDecoder false
        ⟨200, [("Location", "/x")], ⟨"ab", none⟩⟩
      = .ok ("", "ab", some "/x") ∧
    ¬ ∃ svc method,
      DecodeMethodExplicitBodyUserResultMultipleViewResponse sampleUserOK sampleDecoder false
          ⟨200, [("goa-view", "bogus"), ("Location", "/x")], ⟨"ab", none⟩⟩
        = .error (.ErrValidationError svc method (.unknownView "bogus")) := by
  refine ⟨rfl, rfl, rfl, ?_⟩
  rintro ⟨svc, method, h⟩
  have hv : DecodeMethodExplicitBodyUserResultMultipleViewResponse sampleUserOK sampleDecoder
      false ⟨200, [("goa-view", "bogus"), ("Location", "/x")], ⟨"ab", none⟩⟩
      = .ok ("", "ab", some "/x") := rfl
  rw [hv] at h
  cases h

/-- C15 (amended): in the generated decoders that project the result with views default and
tiny through a view (the body decoder, and both status branches of the tag decoder), for a
response with a declared status and a decodable body the value of the header "goa-view"
decides: "" (also when the header is absent) or "default" selects the default projection,
"tiny" the tiny projection, and every other value makes the decoder return no result but a
validation error "unknown goa-view in header".  The decoders generated for the same result
with an empty response body or an explicit user type body do not read "goa-view": for a
declared status (and a decodable body) they return the result assembled from the header
Location (and the decoded body), whatever the value of "goa-view" is. -/
theorem Decode_selects_view {β β1 β2 π ρ : Type}
    (newOK : Option String → ρ) (newUserOK : β → Option String → ρ)
    (newDefault newTiny : β → Resulttypemultipleviews π)
    (newAcceptedDefault newAcceptedTiny : β1 → Resulttypemultipleviews π)
    (newOKDefault newOKTiny : β2 → Resulttypemultipleviews π)
    (validate : Resulttypemultipleviews π → Option Err)
    (newResult : Resulttypemultipleviews π → ρ)
    (decoder : Response → Except Err β)
    (decodeAccepted : Response → Except Err β1) (decodeOK : Response → Except Err β2)
    (restoreBody : Bool) (resp resp2 r200 r202 : Response)
    (bodyB : β) (bodyA : β1) (bodyO : β2)
    (h200 : readAndRestore restoreBody resp = .ok r200) (hs200 : resp.StatusCode = 200)
    (hB : decoder r200 = .ok bodyB) (hO : decodeOK r200 = .ok bodyO)
    (h202 : readAndRestore restoreBody resp2 = .ok r202) (hs202 : resp2.StatusCode = 202)
    (hA : decodeAccepted r202 = .ok bodyA) :
    DecodeMethodBodyMultipleViewResponse newDefault newTiny validate newResult decoder
        restoreBody resp
      = (if resp.Header.Get "goa-view" = "" ∨ resp.Header.Get "goa-view" = "default" then
          validated "ServiceBodyMultipleView" "MethodBodyMultipleView" validate newResult
            (setC (newDefault bodyB) (headerPtr (resp.Header.Get "Location")))
        else if resp.Header.Get "goa-view" = "tiny" then
          validated "ServiceBodyMultipleView" "MethodBodyMultipleView" validate newResult
            (setC (newTiny bodyB) (headerPtr (resp.Header.Get "Location")))
        else
          .error (.ErrValidationError "ServiceBodyMultipleView" "MethodBodyMultipleView"
            (.unknownView (resp.Header.Get "goa-view")))) ∧
    DecodeMethodTagMultipleViewsResponse newAcceptedDefault newAcceptedTiny newOKDefault
        newOKTiny validate newResult decodeAccepted decodeOK restoreBody resp2
      = (if resp2.Header.Get "goa-view" = "" ∨ resp2.Header.Get "goa-view" = "default" then
          validated "ServiceTagMultipleViews" "MethodTagMultipleViews" validate newResult
            (setC (newAcceptedDefault bodyA) (headerPtr (resp2.Header.Get "c")))
        else if resp2.Header.Get "goa-view" = "tiny" then
          validated "ServiceTagMultipleViews" "MethodTagMultipleViews" validate newResult
            (setC (newAcceptedTiny bodyA) (headerPtr (resp2.Header.Get "c")))
        else
          .error (.ErrValidationError "ServiceTagMultipleViews" "MethodTagMultipleViews"
            (.unknownView (resp2.Header.Get "goa-view")))) ∧
    DecodeMethodTagMultipleViewsResponse newAcceptedDefault newAcceptedTiny newOKDefault
        newOKTiny validate newResult decodeAccepted decodeOK restoreBody resp
      = (if resp.Header.Get "goa-view" = "" ∨ resp.Header.Get "goa-view" = "default" then
          validated "ServiceTagMultipleViews" "MethodTagMultipleViews" validate newResult
            (newOKDefault bodyO)
        else if resp.Header.Get "goa-view" = "tiny" then
          validated "ServiceTagMultipleViews" "MethodTagMultipleViews" validate newResult
            (newOKTiny bodyO)
        else
          .error (.ErrValidationError "ServiceTagMultipleViews" "MethodTagMultipleViews"
            (.unknownView (resp.Header.Get "goa-view")))) ∧
    DecodeMethodEmptyBodyResultMultipleViewResponse newOK restoreBody resp
      = .ok (newOK (headerPtr (resp.Header.Get "Location"))) ∧
    DecodeMethodExplicitBodyUserResultMultipleViewResponse newUserOK decoder restoreBody resp
      = .ok (newUserOK bodyB (headerPtr (resp.Header.Get "Location"))) := by
  obtain ⟨e1, e2, _⟩ := readAndRestore_ok h200
  obtain ⟨f1, f2, _⟩ := readAndRestore_ok h202
  rw [← e1] at hs200
  rw [← f1] at hs202
  have hne : ¬ ((200 : Int) = 202) := by decide
  refine ⟨?_, ?_, ?_, ?_, ?_⟩
  · simp only [DecodeMethodBodyMultipleViewResponse, h200, hs200, hB, switchView_eq, e2,
      if_true]
    split_ifs <;> rfl
  · simp only [DecodeMethodTagMultipleViewsResponse, h202, hs202, hA, switchView_eq, f2,
      if_true]
    split_ifs <;> rfl
  · simp only [DecodeMethodTagMultipleViewsResponse, h200, hs200, hO, switchView_eq, e2,
      if_neg hne, if_true]
    split_ifs <;> rfl
  · simp only [DecodeMethodEmptyBodyResultMultipleViewResponse, h200, hs200, e2, if_true]
  · simp only [DecodeMethodExplicitBodyUserResultMultipleViewResponse, h200, hs200, hB, e2,
      if_true]

theorem Decode_selects_view_witness :
    DecodeMethodBodyMultipleViewResponse sampleDefault sampleTiny sampleValidate sampleResult
        sampleDecoder true ⟨200, [("goa-view", "tiny"), ("Location", "/x")], ⟨"ab", none⟩⟩
      = .ok ("tiny", "", some "/x") ∧
    DecodeMethodTagMultipleViewsResponse sampleDefault sampleTiny sampleDefault sampleTiny
        sampleValidate sampleResult sampleDecoder sampleDecoder true
        ⟨202, [("goa-view", "bogus"), ("c", "v")], ⟨"ab", none⟩⟩
      = .error (.ErrValidationError "ServiceTagMultipleViews" "MethodTagMultipleViews"
          (.unknownView "bogus")) ∧
    DecodeMethodTagMultipleViewsResponse sampleDefault sampleTiny sampleDefault sampleTiny
        sampleValidate sampleResult sampleDecoder sampleDecoder true
        ⟨200, [("goa-view", "tiny"), ("Location", "/x")], ⟨"ab", none⟩⟩
      = .ok ("tiny", "", none) ∧
    DecodeMethodEmptyBodyResultMultipleViewResponse sampleOK true
        ⟨200, [("goa-view", "tiny"), ("Location", "/x")], ⟨"ab", none⟩⟩
      = .ok ("", "", some "/x") ∧
    DecodeMethodExplicitBodyUserResultMultipleViewResponse sampleUserOK sampleDecoder true
        ⟨200, [("goa-view", "tiny"), ("Location", "/x")], ⟨"ab", none⟩⟩
      = .ok ("", "ab", some "/x") := by
  have hw := Decode_selects_view sampleOK sampleUserOK sampleDefault sampleTiny
    sampleDefault sampleTiny
    sampleDefault sampleTiny sampleValidate sampleResult sampleDecoder sampleDecoder
    sampleDecoder true
    ⟨200, [("goa-view", "tiny"), ("Location", "/x")], ⟨"ab", none⟩⟩
    ⟨202, [("goa-view", "bogus"), ("c", "v")], ⟨"ab", none⟩⟩
    ⟨200, [("goa-view", "tiny"), ("Location", "/x")], ⟨"ab", none⟩⟩
    ⟨202, [("goa-view", "bogus"), ("c", "v")], ⟨"ab", none⟩⟩
    "ab" "ab" "ab" rfl rfl rfl rfl rfl rfl rfl
  exact ⟨hw.1, hw.2.1, hw.2.2.1, hw.2.2.2.1, hw.2.2.2.2⟩

/-- C17 (as stated) fails: with `restoreBody` set, a response of undeclared status 500
whose body cannot be read to the end makes the decoder return the read error itself (line
12), not an invalid-response error. -/
theorem Decode_undeclared_status_read_error_counterexample :
    DecodeMethodEmptyServerResponseResponse "result" true
        ⟨500, [], ⟨"par", some "unexpected EOF"⟩⟩
      = .error (.ext "unexpected EOF") ∧
    ¬ ∃ svc method status body,
        DecodeMethodEmptyServerResponseResponse "result" true
            ⟨500, [], ⟨"par", some "unexpected EOF"⟩⟩
          = .error (.ErrInvalidResponse svc method status body) := by
  refine ⟨rfl, ?_⟩
  rintro ⟨svc, method, status, body, h⟩
  have hv : DecodeMethodEmptyServerResponseResponse "result" true
      ⟨500, [], ⟨"par", some "unexpected EOF"⟩⟩ = .error (.ext "unexpected EOF") := rfl
  rw [hv] at h
  cases h

theorem readAndRestore_eq (restoreBody : Bool) (resp : Response) :
    readAndRestore restoreBody resp
      = match (if restoreBody then resp.Body.err else none) with
        | some e => .error (.ext e)
        | none =>
          .ok (if restoreBody then { resp with Body := ⟨resp.Body.data, none⟩ } else resp) := by
  unfold readAndRestore
  cases restoreBody with
  | false => simp
  | true =>
    cases he : resp.Body.err <;> simp [he]

/-- C17 (amended): for every generated decoder and every response whose status code is not
one of those declared for the method, the decoder returns no result.  When `restoreBody` is
set and reading the body fails it returns that read error; otherwise it returns an
invalid-response error that carries the service name, the method name, the received status
code and the text read from the response body. -/
theorem Decode_undeclared_status {β β1 β2 π ρ : Type}
    (newResultOK : ρ) (newOK : Option String → ρ) (newUserOK : β → Option String → ρ)
    (newDefault newTiny : β → Resulttypemultipleviews π)
    (newAcceptedDefault newAcceptedTiny : β1 → Resulttypemultipleviews π)
    (newOKDefault newOKTiny : β2 → Resulttypemultipleviews π)
    (validate : Resulttypemultipleviews π → Option Err)
    (newResult : Resulttypemultipleviews π → ρ)
    (decoder : Response → Except Err β)
    (decodeAccepted : Response → Except Err β1) (decodeOK : Response → Except Err β2)
    (restoreBody : Bool) (resp resp2 : Response)
    (hs : resp.StatusCode ≠ 200)
    (hs2 : resp2.StatusCode ≠ 202 ∧ resp2.StatusCode ≠ 200) :
    DecodeMethodEmptyServerResponseResponse newResultOK restoreBody resp
      = (match (if restoreBody then resp.Body.err else none) with
        | some e => .error (.ext e)
        | none =>
          .error (.ErrInvalidResponse "ServiceEmptyServerResponse" "MethodEmptyServerResponse"
            resp.StatusCode resp.Body.data)) ∧
    DecodeMethodBodyMultipleViewResponse newDefault newTiny validate newResult decoder
        restoreBody resp
      = (match (if restoreBody then resp.Body.err else none) with
        | some e => .error (.ext e)
        | none =>
          .error (.ErrInvalidResponse "ServiceBodyMultipleView" "MethodBodyMultipleView"
            resp.StatusCode resp.Body.data)) ∧
    DecodeMethodEmptyBodyResultMultipleViewResponse newOK restoreBody resp
      = (match (if restoreBody then resp.Body.err else none) with
        | some e => .error (.ext e)
        | none =>
          .error (.ErrInvalidResponse "ServiceEmptyBodyResultMultipleView"
            "MethodEmptyBodyResultMultipleView" resp.StatusCode resp.Body.data)) ∧
    DecodeMethodExplicitBodyUserResultMultipleViewResponse newUserOK decoder restoreBody resp
      = (match (if restoreBody then resp.Body.err else none) with
        | some e => .error (.ext e)
        | none =>
          .error (.ErrInvalidResponse "ServiceExplicitBodyUserResultMultipleView"
            "MethodExplicitBodyUserResultMultipleView" resp.StatusCode resp.Body.data)) ∧
    DecodeMethodTagMultipleViewsResponse newAcceptedDefault newAcceptedTiny newOKDefault
        newOKTiny validate newResult decodeAccepted decodeOK restoreBody resp2
      = (match (if restoreBody then resp2.Body.err else none) with
        | some e => .error (.ext e)
        | none =>
          .error (.ErrInvalidResponse "ServiceTagMultipleViews" "MethodTagMultipleViews"
            resp2.StatusCode resp2.Body.data)) := by
  obtain ⟨hs3, hs4⟩ := hs2
  refine ⟨?_, ?_, ?_, ?_, ?_⟩
  · unfold DecodeMethodEmptyServerResponseResponse
    rw [readAndRestore_eq]
    cases restoreBody <;> cases resp.Body.err <;> simp [hs]
  · unfold DecodeMethodBodyMultipleViewResponse
    rw [readAndRestore_eq]
    cases restoreBody <;> cases resp.Body.err <;> simp [hs]
  · unfold DecodeMethodEmptyBodyResultMultipleViewResponse
    rw [readAndRestore_eq]
    cases restoreBody <;> cases resp.Body.err <;> simp [hs]
  · unfold DecodeMethodExplicitBodyUserResultMultipleViewResponse
    rw [readAndRestore_eq]
    cases restoreBody <;> cases resp.Body.err <;> simp [hs]
  · unfold DecodeMethodTagMultipleViewsResponse
    rw [readAndRestore_eq]
    cases restoreBody <;> cases resp2.Body.err <;> simp [hs3, hs4]

theorem Decode_undeclared_status_witness :
    DecodeMethodEmptyServerResponseResponse (("", "", none) : String × String × Option String)
        false ⟨404, [], ⟨"not here", none⟩⟩
      = .error (.ErrInvalidResponse "ServiceEmptyServerResponse" "MethodEmptyServerResponse"
          404 "not here") ∧
    DecodeMethodTagMultipleViewsResponse sampleDefault sampleTiny sampleDefault sampleTiny
        sampleValidate sampleResult sampleDecoder sampleDecoder true
        ⟨404, [("goa-view", "tiny")], ⟨"not here", none⟩⟩
      = .error (.ErrInvalidResponse "ServiceTagMultipleViews" "MethodTagMultipleViews"
          404 "not here") := by
  have hw := Decode_undeclared_status (("", "", none) : String × String × Option String)
    (fun c => ("", "", c)) (fun (b : String) c => ("", b, c))
    sampleDefault sampleTiny sampleDefault sampleTiny sampleDefault sampleTiny
    sampleValidate sampleResult sampleDecoder sampleDecoder sampleDecoder false
    ⟨404, [], ⟨"not here", none⟩⟩ ⟨404, [("goa-view", "tiny")], ⟨"not here", none⟩⟩
    (by decide) (by decide)
  have hw2 := Decode_undeclared_status (("", "", none) : String × String × Option String)
    (fun c => ("", "", c)) (fun (b : String) c => ("", b, c))
    sampleDefault sampleTiny sampleDefault sampleTiny sampleDefault sampleTiny
    sampleValidate sampleResult sampleDecoder sampleDecoder sampleDecoder true
    ⟨404, [], ⟨"not here", none⟩⟩ ⟨404, [("goa-view", "tiny")], ⟨"not here", none⟩⟩
    (by decide) (by decide)
  exact ⟨hw.1, hw2.2.2.2.2⟩

/-! ## The declared-status branches, step by step -/

theorem DecodeBody_declared {β π ρ : Type}
    (newDefault newTiny : β → Resulttypemultipleviews π)
    (validate : Resulttypemultipleviews π → Option Err)
    (newResult : Resulttypemultipleviews π → ρ)
    (decoder : Response → Except Err β) {restoreBody : Bool} {resp r200 : Response}
    (h200 : readAndRestore restoreBody resp = .ok r200) (hs200 : resp.StatusCode = 200) :
    DecodeMethodBodyMultipleViewResponse newDefault newTiny validate newResult decoder
        restoreBody resp
      = match decoder r200 with
        | .error err =>
          .error (.ErrDecodingError "ServiceBodyMultipleView" "MethodBodyMultipleView" err)
        | .ok body =>
          match switchView "ServiceBodyMultipleView" "MethodBodyMultipleView"
              newDefault newTiny (resp.Header.Get "goa-view") body with
          | .error e => .error e
          | .ok vres =>
            validated "ServiceBodyMultipleView" "MethodBodyMultipleView" validate newResult
              (setC vres (headerPtr (resp.Header.Get "Location"))) := by
  obtain ⟨e1, e2, _⟩ := readAndRestore_ok h200
  rw [← e1] at hs200
  simp only [DecodeMethodBodyMultipleViewResponse, h200, hs200, e2, if_true]

theorem DecodeTag_accepted {β1 β2 π ρ : Type}
    (newAcceptedDefault newAcceptedTiny : β1 → Resulttypemultipleviews π)
    (newOKDefault newOKTiny : β2 → Resulttypemultipleviews π)
    (validate : Resulttypemultipleviews π → Option Err)
    (newResult : Resulttypemultipleviews π → ρ)
    (decodeAccepted : Response → Except Err β1) (decodeOK : Response → Except Err β2)
    {restoreBody : Bool} {resp r202 : Response}
    (h202 : readAndRestore restoreBody resp = .ok r202) (hs202 : resp.StatusCode = 202) :
    DecodeMethodTagMultipleViewsResponse newAcceptedDefault newAcceptedTiny newOKDefault
        newOKTiny validate newResult decodeAccepted decodeOK restoreBody resp
      = match decodeAccepted r202 with
        | .error err =>
          .error (.ErrDecodingError "ServiceTagMultipleViews" "MethodTagMultipleViews" err)
        | .ok body =>
          match switchView "ServiceTagMultipleViews" "MethodTagMultipleViews"
              newAcceptedDefault newAcceptedTiny (resp.Header.Get "goa-view") body with
          | .error e => .error e
          | .ok vres =>
            validated "ServiceTagMultipleViews" "MethodTagMultipleViews" validate newResult
              (setC vres (headerPtr (resp.Header.Get "c"))) := by
  obtain ⟨e1, e2, _⟩ := readAndRestore_ok h202
  rw [← e1] at hs202
  simp only [DecodeMethodTagMultipleViewsResponse, h202, hs202, e2, if_true]

theorem DecodeTag_ok {β1 β2 π ρ : Type}
    (newAcceptedDefault newAcceptedTiny : β1 → Resulttypemultipleviews π)
    (newOKDefault newOKTiny : β2 → Resulttypemultipleviews π)
    (validate : Resulttypemultipleviews π → Option Err)
    (newResult : Resulttypemultipleviews π → ρ)
    (decodeAccepted : Response → Except Err β1) (decodeOK : Response → Except Err β2)
    {restoreBody : Bool} {resp r200 : Response}
    (h200 : readAndRestore restoreBody resp = .ok r200) (hs200 : resp.StatusCode = 200) :
    DecodeMethodTagMultipleViewsResponse newAcceptedDefault newAcceptedTiny newOKDefault
        newOKTiny validate newResult decodeAccepted decodeOK restoreBody resp
      = match decodeOK r200 with
        | .error err =>
          .error (.ErrDecodingError "ServiceTagMultipleViews" "MethodTagMultipleViews" err)
        | .ok body =>
          match switchView "ServiceTagMultipleViews" "MethodTagMultipleViews"
              newOKDefault newOKTiny (resp.Header.Get "goa-view") body with
          | .error e => .error e
          | .ok vres =>
            validated "ServiceTagMultipleViews" "MethodTagMultipleViews" validate newResult
              vres := by
  obtain ⟨e1, e2, _⟩ := readAndRestore_ok h200
  rw [← e1] at hs200
  have hne : ¬ ((200 : Int) = 202) := by decide
  simp only [DecodeMethodTagMultipleViewsResponse, h200, hs200, e2, if_neg hne, if_true]

theorem switchView_accepted {β π : Type} (svc method : String)
    (newDefault newTiny : β → Resulttypemultipleviews π) {view : String} (body : β)
    (hv : view = "" ∨ view = "default" ∨ view = "tiny") :
    ∃ vres, (vres = newDefault body ∨ vres = newTiny body) ∧
      switchView svc method newDefault newTiny view body = .ok vres := by
  rw [switchView_eq]
  rcases hv with h | h | h
  · exact ⟨newDefault body, Or.inl rfl, by simp [h]⟩
  · exact ⟨newDefault body, Or.inl rfl, by simp [h]⟩
  · refine ⟨newTiny body, Or.inr rfl, ?_⟩
    subst h
    simp

theorem switchView_ok_or_unknown {β π : Type} (svc method : String)
    (newDefault newTiny : β → Resulttypemultipleviews π) (view : String) (body : β) :
    (∃ vres, switchView svc method newDefault newTiny view body = .ok vres) ∨
      switchView svc method newDefault newTiny view body
        = .error (.ErrValidationError svc method (.unknownView view)) := by
  unfold switchView
  split_ifs
  · exact Or.inl ⟨_, rfl⟩
  · exact Or.inl ⟨_, rfl⟩
  · exact Or.inr rfl

theorem validated_ok {π ρ : Type} {svc method : String}
    {validate : Resulttypemultipleviews π → Option Err}
    {newResult : Resulttypemultipleviews π → ρ} {vres : Resulttypemultipleviews π} {r : ρ}
    (h : validated svc method validate newResult vres = .ok r) :
    validate vres = none ∧ r = newResult vres := by
  unfold validated at h
  cases hv : validate vres with
  | none =>
    rw [hv] at h
    exact ⟨rfl, (Except.ok.inj h).symm⟩
  | some e =>
    rw [hv] at h
    cases h

theorem headerPtr_eq (t : String) : headerPtr t = if t = "" then none else some t := by
  unfold headerPtr
  by_cases h : t = "" <;> simp [h]

/-- C18: in the multiple-view decoders with a header-bound attribute (the body decoder with
header "Location", the 202 branch of the tag decoder with header "c"), for every accepted
view value the attribute `C` of the projected result is assigned after the projection is
built, whichever projection it is: it is the header text when that text is not empty and is
nil when the header is absent or empty; nothing else of the projection changes, and a
returned result is built from the projection so completed. -/
theorem Decode_header_attribute_overlay {β β1 β2 π ρ : Type}
    (newDefault newTiny : β → Resulttypemultipleviews π)
    (newAcceptedDefault newAcceptedTiny : β1 → Resulttypemultipleviews π)
    (newOKDefault newOKTiny : β2 → Resulttypemultipleviews π)
    (validate : Resulttypemultipleviews π → Option Err)
    (newResult : Resulttypemultipleviews π → ρ)
    (decoder : Response → Except Err β)
    (decodeAccepted : Response → Except Err β1) (decodeOK : Response → Except Err β2)
    (restoreBody : Bool) (resp resp2 r200 r202 : Response) (bodyB : β) (bodyA : β1)
    (h200 : readAndRestore restoreBody resp = .ok r200) (hs200 : resp.StatusCode = 200)
    (hB : decoder r200 = .ok bodyB)
    (h202 : readAndRestore restoreBody resp2 = .ok r202) (hs202 : resp2.StatusCode = 202)
    (hA : decodeAccepted r202 = .ok bodyA)
    (hv : resp.Header.Get "goa-view" = "" ∨ resp.Header.Get "goa-view" = "default" ∨
      resp.Header.Get "goa-view" = "tiny")
    (hv2 : resp2.Header.Get "goa-view" = "" ∨ resp2.Header.Get "goa-view" = "default" ∨
      resp2.Header.Get "goa-view" = "tiny") :
    (∃ vres, (vres = newDefault bodyB ∨ vres = newTiny bodyB) ∧
      DecodeMethodBodyMultipleViewResponse newDefault newTiny validate newResult decoder
          restoreBody resp
        = validated "ServiceBodyMultipleView" "MethodBodyMultipleView" validate newResult
            (setC vres (headerPtr (resp.Header.Get "Location"))) ∧
      (setC vres (headerPtr (resp.Header.Get "Location"))).Projected.C
        = (if resp.Header.Get "Location" = "" then none
            else some (resp.Header.Get "Location")) ∧
      (setC vres (headerPtr (resp.Header.Get "Location"))).Projected.fields
        = vres.Projected.fields ∧
      (setC vres (headerPtr (resp.Header.Get "Location"))).View = vres.View ∧
      ∀ r, DecodeMethodBodyMultipleViewResponse newDefault newTiny validate newResult decoder
            restoreBody resp = .ok r →
        r = newResult (setC vres (headerPtr (resp.Header.Get "Location")))) ∧
    (∃ vres, (vres = newAcceptedDefault bodyA ∨ vres = newAcceptedTiny bodyA) ∧
      DecodeMethodTagMultipleViewsResponse newAcceptedDefault newAcceptedTiny newOKDefault
          newOKTiny validate newResult decodeAccepted decodeOK restoreBody resp2
        = validated "ServiceTagMultipleViews" "MethodTagMultipleViews" validate newResult
            (setC vres (headerPtr (resp2.Header.Get "c"))) ∧
      (setC vres (headerPtr (resp2.Header.Get "c"))).Projected.C
        = (if resp2.Header.Get "c" = "" then none else some (resp2.Header.Get "c")) ∧
      (setC vres (headerPtr (resp2.Header.Get "c"))).Projected.fields
        = vres.Projected.fields ∧
      (setC vres (headerPtr (resp2.Header.Get "c"))).View = vres.View ∧
      ∀ r, DecodeMethodTagMultipleViewsResponse newAcceptedDefault newAcceptedTiny
            newOKDefault newOKTiny validate newResult decodeAccepted decodeOK restoreBody
            resp2 = .ok r →
        r = newResult (setC vres (headerPtr (resp2.Header.Get "c")))) := by
  constructor
  · obtain ⟨vres, hsel, hsw⟩ := switchView_accepted "ServiceBodyMultipleView"
      "MethodBodyMultipleView" newDefault newTiny bodyB hv
    have hD := DecodeBody_declared newDefault newTiny validate newResult decoder h200 hs200
    simp only [hB, hsw] at hD
    refine ⟨vres, hsel, hD, headerPtr_eq _, rfl, rfl, ?_⟩
    intro r hr
    rw [hD] at hr
    exact (validated_ok hr).2
  · obtain ⟨vres, hsel, hsw⟩ := switchView_accepted "ServiceTagMultipleViews"
      "MethodTagMultipleViews" newAcceptedDefault newAcceptedTiny bodyA hv2
    have hD := DecodeTag_accepted newAcceptedDefault newAcceptedTiny newOKDefault newOKTiny
      validate newResult decodeAccepted decodeOK h202 hs202
    simp only [hA, hsw] at hD
    refine ⟨vres, hsel, hD, headerPtr_eq _, rfl, rfl, ?_⟩
    intro r hr
    rw [hD] at hr
    exact (validated_ok hr).2

theorem Decode_header_attribute_overlay_witness :
    (∃ vres, (vres = sampleDefault "ab" ∨ vres = sampleTiny "ab") ∧
      DecodeMethodBodyMultipleViewResponse sampleDefault sampleTiny sampleValidate
          sampleResult sampleDecoder false ⟨200, [("Location", "/x")], ⟨"ab", none⟩⟩
        = validated "ServiceBodyMultipleView" "MethodBodyMultipleView" sampleValidate
            sampleResult (setC vres (some "/x")) ∧
      (setC vres (some "/x")).Projected.C = some "/x") ∧
    (∃ vres, (vres = sampleDefault "ab" ∨ vres = sampleTiny "ab") ∧
      DecodeMethodTagMultipleViewsResponse sampleDefault sampleTiny sampleDefault sampleTiny
          sampleValidate sampleResult sampleDecoder sampleDecoder false
          ⟨202, [("goa-view", "tiny"), ("c", "")], ⟨"ab", none⟩⟩
        = validated "ServiceTagMultipleViews" "MethodTagMultipleViews" sampleValidate
            sampleResult (setC vres none) ∧
      (setC vres none).Projected.C = none) := by
  obtain ⟨⟨v1, s1, h1, c1, -⟩, ⟨v2, s2, h2, c2, -⟩⟩ := Decode_header_attribute_overlay
    sampleDefault sampleTiny sampleDefault sampleTiny sampleDefault sampleTiny
    sampleValidate sampleResult sampleDecoder sampleDecoder sampleDecoder false
    ⟨200, [("Location", "/x")], ⟨"ab", none⟩⟩
    ⟨202, [("goa-view", "tiny"), ("c", "")], ⟨"ab", none⟩⟩
    ⟨200, [("Location", "/x")], ⟨"ab", none⟩⟩
    ⟨202, [("goa-view", "tiny"), ("c", "")], ⟨"ab", none⟩⟩
    "ab" "ab" rfl rfl rfl rfl rfl rfl (Or.inl rfl) (Or.inr (Or.inr rfl))
  exact ⟨⟨v1, s1, h1, c1⟩, ⟨v2, s2, h2, c2⟩⟩

/-- C19 (as stated) fails: the decoder for an explicit user type body assembles its result
from the decoded body and the header and returns it without any re-validation.  With the
sample re-validation that rejects `C = "bad"`, the response with header Location "bad" still
gives a result, and that result does not pass the re-validation. -/
theorem Decode_without_revalidation_counterexample :
    DecodeMethodExplicitBodyUserResultMultipleViewResponse sampleUserOK sampleDecoder false
        ⟨200, [("Location", "bad")], ⟨"ab", none⟩⟩
      = .ok ("", "ab", some "bad") ∧
    sampleValidateResult ("", "ab", some "bad") = some (.ext "c is invalid") ∧
    DecodeMethodBodyMultipleViewResponse sampleDefault sampleTiny sampleValidate sampleResult
        sampleDecoder false ⟨200, [("Location", "bad")], ⟨"ab", none⟩⟩
      = .error (.ErrValidationError "ServiceBodyMultipleView" "MethodBodyMultipleView"
          (.ext "c is invalid")) := by
  exact ⟨rfl, rfl, rfl⟩

theorem decoded_ok_revalidated {π ρ β : Type} {svc method : String}
    {validate : Resulttypemultipleviews π → Option Err}
    {newResult : Resulttypemultipleviews π → ρ}
    {newDefault newTiny : β → Resulttypemultipleviews π}
    {dec : Except Err β} {view : String}
    (f : Resulttypemultipleviews π → Resulttypemultipleviews π) {r : ρ}
    (h : (match dec with
          | Except.error err => Except.error (Err.ErrDecodingError svc method err)
          | Except.ok body =>
            match switchView svc method newDefault newTiny view body with
            | Except.error e => Except.error e
            | Except.ok vres => validated svc method validate newResult (f vres))
        = Except.ok r) :
    ∃ vres, validate vres = none ∧ r = newResult vres := by
  cases dec with
  | error e => cases h
  | ok body =>
    cases hsw : switchView svc method newDefault newTiny view body with
    | error e => simp only [hsw] at h; cases h
    | ok vres =>
      simp only [hsw] at h
      exact ⟨f vres, validated_ok h⟩

/-- C19 (amended): in the decoders that project through a view (the body decoder and both
status branches of the tag decoder), for a response with a declared status a result is
returned only if `Validate` accepted the projected value it is built from; in each of the
three branches a re-validation failure is returned as a validation error and a
body-decoding failure as a decoding error, two different kinds of error.  The decoders for
an empty body and for an explicit user type body assemble their result from the header and
the decoded body and return it without re-validation. -/
theorem Decode_revalidation {β β1 β2 π ρ : Type}
    (newOK : Option String → ρ) (newUserOK : β → Option String → ρ)
    (newDefault newTiny : β → Resulttypemultipleviews π)
    (newAcceptedDefault newAcceptedTiny : β1 → Resulttypemultipleviews π)
    (newOKDefault newOKTiny : β2 → Resulttypemultipleviews π)
    (validate : Resulttypemultipleviews π → Option Err)
    (newResult : Resulttypemultipleviews π → ρ)
    (decoder : Response → Except Err β)
    (decodeAccepted : Response → Except Err β1) (decodeOK : Response → Except Err β2)
    (restoreBody : Bool) (resp resp2 r200 r202 : Response)
    (h200 : readAndRestore restoreBody resp = .ok r200) (hs200 : resp.StatusCode = 200)
    (h202 : readAndRestore restoreBody resp2 = .ok r202) (hs202 : resp2.StatusCode = 202) :
    (∀ r, DecodeMethodBodyMultipleViewResponse newDefault newTiny validate newResult decoder
          restoreBody resp = .ok r → ∃ vres, validate vres = none ∧ r = newResult vres) ∧
    (∀ r, DecodeMethodTagMultipleViewsResponse newAcceptedDefault newAcceptedTiny
          newOKDefault newOKTiny validate newResult decodeAccepted decodeOK restoreBody resp2
          = .ok r → ∃ vres, validate vres = none ∧ r = newResult vres) ∧
    (∀ r, DecodeMethodTagMultipleViewsResponse newAcceptedDefault newAcceptedTiny
          newOKDefault newOKTiny validate newResult decodeAccepted decodeOK restoreBody resp
          = .ok r → ∃ vres, validate vres = none ∧ r = newResult vres) ∧
    (∀ body vres e, decoder r200 = .ok body →
      switchView "ServiceBodyMultipleView" "MethodBodyMultipleView" newDefault newTiny
          (resp.Header.Get "goa-view") body = .ok vres →
      validate (setC vres (headerPtr (resp.Header.Get "Location"))) = some e →
      DecodeMethodBodyMultipleViewResponse newDefault newTiny validate newResult decoder
          restoreBody resp
        = .error (.ErrValidationError "ServiceBodyMultipleView" "MethodBodyMultipleView" e)) ∧
    (∀ e, decoder r200 = .error e →
      DecodeMethodBodyMultipleViewResponse newDefault newTiny validate newResult decoder
          restoreBody resp
        = .error (.ErrDecodingError "ServiceBodyMultipleView" "MethodBodyMultipleView" e)) ∧
    (∀ body vres e, decodeAccepted r202 = .ok body →
      switchView "ServiceTagMultipleViews" "MethodTagMultipleViews" newAcceptedDefault
          newAcceptedTiny (resp2.Header.Get "goa-view") body = .ok vres →
      validate (setC vres (headerPtr (resp2.Header.Get "c"))) = some e →
      DecodeMethodTagMultipleViewsResponse newAcceptedDefault newAcceptedTiny newOKDefault
          newOKTiny validate newResult decodeAccepted decodeOK restoreBody resp2
        = .error (.ErrValidationError "ServiceTagMultipleViews" "MethodTagMultipleViews" e)) ∧
    (∀ e, decodeAccepted r202 = .error e →
      DecodeMethodTagMultipleViewsResponse newAcceptedDefault newAcceptedTiny newOKDefault
          newOKTiny validate newResult decodeAccepted decodeOK restoreBody resp2
        = .error (.ErrDecodingError "ServiceTagMultipleViews" "MethodTagMultipleViews" e)) ∧
    (∀ body vres e, decodeOK r200 = .ok body →
      switchView "ServiceTagMultipleViews" "MethodTagMultipleViews" newOKDefault newOKTiny
          (resp.Header.Get "goa-view") body = .ok vres →
      validate vres = some e →
      DecodeMethodTagMultipleViewsResponse newAcceptedDefault newAcceptedTiny newOKDefault
          newOKTiny validate newResult decodeAccepted decodeOK restoreBody resp
        = .error (.ErrValidationError "ServiceTagMultipleViews" "MethodTagMultipleViews" e)) ∧
    (∀ e, decodeOK r200 = .error e →
      DecodeMethodTagMultipleViewsResponse newAcceptedDefault newAcceptedTiny newOKDefault
          newOKTiny validate newResult decodeAccepted decodeOK restoreBody resp
        = .error (.ErrDecodingError "ServiceTagMultipleViews" "MethodTagMultipleViews" e)) ∧
    (∀ (s1 m1 s2 m2 : String) (e1 e2 : Err),
      Err.ErrValidationError s1 m1 e1 ≠ Err.ErrDecodingError s2 m2 e2) ∧
    DecodeMethodEmptyBodyResultMultipleViewResponse newOK restoreBody resp
      = .ok (newOK (headerPtr (resp.Header.Get "Location"))) ∧
    (∀ body, decoder r200 = .ok body →
      DecodeMethodExplicitBodyUserResultMultipleViewResponse newUserOK decoder restoreBody resp
        = .ok (newUserOK body (headerPtr (resp.Header.Get "Location")))) := by
  have hB := DecodeBody_declared newDefault newTiny validate newResult decoder h200 hs200
  have hA := DecodeTag_accepted newAcceptedDefault newAcceptedTiny newOKDefault newOKTiny
    validate newResult decodeAccepted decodeOK h202 hs202
  have hO := DecodeTag_ok newAcceptedDefault newAcceptedTiny newOKDefault newOKTiny
    validate newResult decodeAccepted decodeOK h200 hs200
  obtain ⟨e1, e2, _⟩ := readAndRestore_ok h200
  have hs : r200.StatusCode = 200 := by rw [e1]; exact hs200
  refine ⟨?_, ?_, ?_, ?_, ?_, ?_, ?_, ?_, ?_, ?_, ?_, ?_⟩
  · intro r hr
    rw [hB] at hr
    exact decoded_ok_revalidated _ hr
  · intro r hr
    rw [hA] at hr
    exact decoded_ok_revalidated _ hr
  · intro r hr
    rw [hO] at hr
    exact decoded_ok_revalidated (fun v => v) hr
  · intro body vres e hd hsw hv
    rw [hB]
    simp only [hd, hsw, validated, hv]
  · intro e hd
    rw [hB]
    simp only [hd]
  · intro body vres e hd hsw hv
    rw [hA]
    simp only [hd, hsw, validated, hv]
  · intro e hd
    rw [hA]
    simp only [hd]
  · intro body vres e hd hsw hv
    rw [hO]
    simp only [hd, hsw, validated, hv]
  · intro e hd
    rw [hO]
    simp only [hd]
  · intro s1 m1 s2 m2 e1 e2 h
    cases h
  · simp only [DecodeMethodEmptyBodyResultMultipleViewResponse, h200, hs, e2, if_true]
  · intro body hd
    simp only [DecodeMethodExplicitBodyUserResultMultipleViewResponse, h200, hs, hd, e2,
      if_true]

theorem Decode_revalidation_witness :
    readAndRestore false ⟨200, [("Location", "bad")], ⟨"ab", none⟩⟩
      = .ok ⟨200, [("Location", "bad")], ⟨"ab", none⟩⟩ ∧
    (∀ r, DecodeMethodBodyMultipleViewResponse sampleDefault sampleTiny sampleValidate
          sampleResult sampleDecoder false ⟨200, [("Location", "bad")], ⟨"ab", none⟩⟩ = .ok r →
      ∃ vres, sampleValidate vres = none ∧ r = sampleResult vres) ∧
    DecodeMethodTagMultipleViewsResponse sampleDefault sampleTiny sampleDefault sampleTiny
        sampleValidate sampleResult sampleDecoder sampleDecoder false
        ⟨202, [("c", "bad")], ⟨"ab", none⟩⟩
      = .error (.ErrValidationError "ServiceTagMultipleViews" "MethodTagMultipleViews"
          (.ext "c is invalid")) ∧
    DecodeMethodEmptyBodyResultMultipleViewResponse sampleOK false
        ⟨200, [("Location", "bad")], ⟨"ab", none⟩⟩
      = .ok (sampleOK (headerPtr "bad")) := by
  have hw := Decode_revalidation sampleOK sampleUserOK sampleDefault sampleTiny
    sampleDefault sampleTiny sampleDefault sampleTiny sampleValidate sampleResult
    sampleDecoder sampleDecoder sampleDecoder false
    ⟨200, [("Location", "bad")], ⟨"ab", none⟩⟩ ⟨202, [("c", "bad")], ⟨"ab", none⟩⟩
    ⟨200, [("Location", "bad")], ⟨"ab", none⟩⟩ ⟨202, [("c", "bad")], ⟨"ab", none⟩⟩
    rfl rfl rfl rfl
  exact ⟨rfl, hw.1,
    hw.2.2.2.2.2.1 "ab" (sampleDefault "ab") (.ext "c is invalid") rfl rfl rfl,
    hw.2.2.2.2.2.2.2.2.2.2.1⟩

theorem Get_withView_self (resp : Response) (v : String) :
    (withView resp v).Header.Get "goa-view" = v := by
  simp [withView, Header.Get, List.lookup]

theorem Get_withView_other (resp : Response) (v : String) (key : String)
    (hk : key ≠ "goa-view") : (withView resp v).Header.Get key = resp.Header.Get key := by
  have hb : (key == "goa-view") = false := by simpa using hk
  simp [withView, Header.Get, List.lookup, hb]

theorem readAndRestore_withView (restoreBody : Bool) (resp : Response) (v : String) :
    readAndRestore restoreBody (withView resp v)
      = match readAndRestore restoreBody resp with
        | .error e => .error e
        | .ok r1 => .ok (withView r1 v) := by
  unfold readAndRestore
  cases restoreBody with
  | false => rfl
  | true =>
    cases he : resp.Body.err with
    | none => simp [withView, he]
    | some e => simp [withView, he]

/-- C16 (as stated) fails: the decoder generated for the multiple-view result with an empty
response body has no view-selection step.  Whatever "goa-view" says, also an unknown view,
it returns the same result built from the header Location alone. -/
theorem Decode_empty_body_ignores_view_counterexample :
    DecodeMethodEmptyBodyResultMultipleViewResponse sampleOK false
        ⟨200, [("goa-view", "bogus"), ("Location", "/x")], ⟨"", none⟩⟩
      = .ok ("", "", some "/x") ∧
    DecodeMethodEmptyBodyResultMultipleViewResponse sampleOK false
        ⟨200, [("goa-view", "tiny"), ("Location", "/x")], ⟨"", none⟩⟩
      = .ok ("", "", some "/x") ∧
    DecodeMethodEmptyBodyResultMultipleViewResponse sampleOK false
        ⟨200, [("Location", "/x")], ⟨"", none⟩⟩
      = .ok ("", "", some "/x") ∧
    DecodeMethodBodyMultipleViewResponse sampleDefault sampleTiny sampleValidate sampleResult
        sampleDecoder false ⟨200, [("goa-view", "bogus"), ("Location", "/x")], ⟨"ab", none⟩⟩
      = .error (.ErrValidationError "ServiceBodyMultipleView" "MethodBodyMultipleView"
          (.unknownView "bogus")) := by
  exact ⟨rfl, rfl, rfl, rfl⟩

/-- C16 (amended): among the generated decoders, those of the multiple-view result whose
response body is the result body (the body decoder and both status branches of the tag
decoder) contain the view-selection step: with a declared status and a decodable body, a
"goa-view" value other than "", "default" and "tiny" is refused with an unknown-view error.
The decoders of the multiple-view result with an empty body or an explicit user type body,
and the decoder of the result without views, contain none: setting "goa-view" to any value
leaves their outcome unchanged. -/
theorem Decode_view_step {β β1 β2 π ρ : Type}
    (newResultOK : ρ) (newOK : Option String → ρ) (newUserOK : β → Option String → ρ)
    (newDefault newTiny : β → Resulttypemultipleviews π)
    (newAcceptedDefault newAcceptedTiny : β1 → Resulttypemultipleviews π)
    (newOKDefault newOKTiny : β2 → Resulttypemultipleviews π)
    (validate : Resulttypemultipleviews π → Option Err)
    (newResult : Resulttypemultipleviews π → ρ)
    (decoder userDecoder : Response → Except Err β)
    (decodeAccepted : Response → Except Err β1) (decodeOK : Response → Except Err β2)
    (restoreBody : Bool) (resp resp2 r200 r202 : Response) (v : String)
    (bodyB : β) (bodyA : β1) (bodyO : β2)
    (hv : v ≠ "" ∧ v ≠ "default" ∧ v ≠ "tiny")
    (h200 : readAndRestore restoreBody (withView resp v) = .ok r200)
    (hs200 : resp.StatusCode = 200)
    (hB : decoder r200 = .ok bodyB) (hO : decodeOK r200 = .ok bodyO)
    (h202 : readAndRestore restoreBody (withView resp2 v) = .ok r202)
    (hs202 : resp2.StatusCode = 202)
    (hA : decodeAccepted r202 = .ok bodyA)
    (hu : ∀ r w, userDecoder (withView r w) = userDecoder r) :
    DecodeMethodBodyMultipleViewResponse newDefault newTiny validate newResult decoder
        restoreBody (withView resp v)
      = .error (.ErrValidationError "ServiceBodyMultipleView" "MethodBodyMultipleView"
          (.unknownView v)) ∧
    DecodeMethodTagMultipleViewsResponse newAcceptedDefault newAcceptedTiny newOKDefault
        newOKTiny validate newResult decodeAccepted decodeOK restoreBody (withView resp2 v)
      = .error (.ErrValidationError "ServiceTagMultipleViews" "MethodTagMultipleViews"
          (.unknownView v)) ∧
    DecodeMethodTagMultipleViewsResponse newAcceptedDefault newAcceptedTiny newOKDefault
        newOKTiny validate newResult decodeAccepted decodeOK restoreBody (withView resp v)
      = .error (.ErrValidationError "ServiceTagMultipleViews" "MethodTagMultipleViews"
          (.unknownView v)) ∧
    (∀ (r : Response) (w : String),
      DecodeMethodEmptyBodyResultMultipleViewResponse newOK restoreBody (withView r w)
        = DecodeMethodEmptyBodyResultMultipleViewResponse newOK restoreBody r) ∧
    (∀ (r : Response) (w : String),
      DecodeMethodExplicitBodyUserResultMultipleViewResponse newUserOK userDecoder restoreBody
          (withView r w)
        = DecodeMethodExplicitBodyUserResultMultipleViewResponse newUserOK userDecoder
            restoreBody r) ∧
    (∀ (r : Response) (w : String),
      DecodeMethodEmptyServerResponseResponse newResultOK restoreBody (withView r w)
        = DecodeMethodEmptyServerResponseResponse newResultOK restoreBody r) := by
  obtain ⟨hv1, hv2, hv3⟩ := hv
  have hsw : ∀ {γ : Type} (svc method : String) (nd nt : γ → Resulttypemultipleviews π)
      (body : γ), switchView svc method nd nt v body
        = .error (.ErrValidationError svc method (.unknownView v)) := by
    intro γ svc method nd nt body
    simp [switchView, hv1, hv2, hv3]
  have hloc : ∀ (r : Response) (w : String),
      (withView r w).Header.Get "Location" = r.Header.Get "Location" :=
    fun r w => Get_withView_other r w "Location" (by decide)
  refine ⟨?_, ?_, ?_, ?_, ?_, ?_⟩
  · rw [DecodeBody_declared newDefault newTiny validate newResult decoder h200 hs200]
    simp only [hB, Get_withView_self, hsw]
  · rw [DecodeTag_accepted newAcceptedDefault newAcceptedTiny newOKDefault newOKTiny
      validate newResult decodeAccepted decodeOK h202 hs202]
    simp only [hA, Get_withView_self, hsw]
  · rw [DecodeTag_ok newAcceptedDefault newAcceptedTiny newOKDefault newOKTiny
      validate newResult decodeAccepted decodeOK h200 hs200]
    simp only [hO, Get_withView_self, hsw]
  · intro r w
    unfold DecodeMethodEmptyBodyResultMultipleViewResponse
    rw [readAndRestore_withView]
    cases readAndRestore restoreBody r with
    | error e => rfl
    | ok r1 => simp only [hloc]; rfl
  · intro r w
    unfold DecodeMethodExplicitBodyUserResultMultipleViewResponse
    rw [readAndRestore_withView]
    cases readAndRestore restoreBody r with
    | error e => rfl
    | ok r1 => simp only [hloc, hu]; rfl
  · intro r w
    unfold DecodeMethodEmptyServerResponseResponse
    rw [readAndRestore_withView]
    cases readAndRestore restoreBody r with
    | error e => rfl
    | ok r1 => rfl

theorem Decode_view_step_witness :
    DecodeMethodBodyMultipleViewResponse sampleDefault sampleTiny sampleValidate sampleResult
        sampleDecoder true (withView ⟨200, [("Location", "/x")], ⟨"ab", none⟩⟩ "bogus")
      = .error (.ErrValidationError "ServiceBodyMultipleView" "MethodBodyMultipleView"
          (.unknownView "bogus")) ∧
    (∀ (r : Response) (w : String),
      DecodeMethodEmptyBodyResultMultipleViewResponse sampleOK true (withView r w)
        = DecodeMethodEmptyBodyResultMultipleViewResponse sampleOK true r) := by
  have hw := Decode_view_step (("", "", none) : String × String × Option String)
    sampleOK sampleUserOK sampleDefault sampleTiny sampleDefault sampleTiny
    sampleDefault sampleTiny sampleValidate sampleResult sampleDecoder sampleDecoder
    sampleDecoder sampleDecoder true
    ⟨200, [("Location", "/x")], ⟨"ab", none⟩⟩ ⟨202, [("c", "v")], ⟨"ab", none⟩⟩
    (withView ⟨200, [("Location", "/x")], ⟨"ab", none⟩⟩ "bogus")
    (withView ⟨202, [("c", "v")], ⟨"ab", none⟩⟩ "bogus")
    "bogus" "ab" "ab" "ab" (by decide) rfl rfl rfl rfl rfl rfl rfl (fun _ _ => rfl)
  exact ⟨hw.1, hw.2.2.2.1⟩

end Testdata

namespace Goa

/-! ## Merging into a `*Error` -/

theorem converted_ptr {h : Heap} {p : Nat} {e : Error} (hp : h[p]? = some e) :
    converted h (.ptr p) = some e := by
  simpa [converted, asError] using hp

theorem MergeErrors_ptr_ok {h : Heap} {pa : Nat} {b : GoError} {ea eb : Error}
    (ha : h[pa]? = some ea) (hb : converted h b = some eb) (hm : ¬ nilMapWrite ea eb) :
    ∃ h9, MergeErrors h (.ptr pa) b = .ok (.ptr pa, h9) ∧ h9[pa]? = some (merged ea eb) ∧
      ∀ q, q < h.length → q ≠ pa → h9[q]? = h[q]? := by
  obtain ⟨pe, h9, hr, hg, hwho, _, hfr⟩ := MergeErrors_ok (converted_ptr ha) hb hm
  have hpe : pe = pa := by
    rcases hwho with hw | ⟨⟨msg, hw⟩, _⟩
    · exact (GoError.ptr.inj hw).symm
    · cases hw
  subst hpe
  exact ⟨h9, hr, hg, hfr⟩

theorem not_nilMapWrite_of_some {e o : Error} {m : MetaMap} (hm : e.MetaValues = some m) :
    ¬ nilMapWrite e o := by
  rintro ⟨h1, _⟩
  rw [hm] at h1
  cases h1

end Goa

namespace Goa.Shared

/-! ## Associativity of `MergeErrors` over shared maps -/

theorem list_set_same {α : Type} {l : List α} {p : Nat} {x : α} (hp : l[p]? = some x) :
    l.set p x = l := by
  induction l generalizing p with
  | nil => simp
  | cons y ys ih =>
    cases p with
    | zero => simp at hp; simp [hp]
    | succ n => simp at hp; simp [ih hp]

theorem list_get_set {α : Type} {l : List α} {p : Nat} {x : α} (y : α)
    (hp : l[p]? = some x) : (l.set p y)[p]? = some y := by
  obtain ⟨hlt, _⟩ := List.getElem?_eq_some_iff.mp hp
  exact List.getElem?_set_self hlt

theorem load_errs {s : State} {p : Nat} {e : Error} (hp : s.errs[p]? = some e) :
    load s p = .ok e := by
  simp [load, hp]

theorem load_store_same {s : State} {p : Nat} (x : Error) (hlt : p < s.errs.length) :
    load (store s p x) p = .ok x := by
  simp [load, store, List.getElem?_set_self hlt]

theorem load_store_ne {s : State} {p q : Nat} (x : Error) (hne : p ≠ q) :
    load (store s p x) q = load s q := by
  simp [load, store, List.getElem?_set_ne hne]

theorem store_store (s : State) (p : Nat) (x y : Error) :
    store (store s p x) p y = store s p y := by
  simp [store, List.set_set]

theorem store_errs_length (s : State) (p : Nat) (x : Error) :
    (store s p x).errs.length = s.errs.length := by
  simp [store]

theorem rangeOf_store (s : State) (p : Nat) (x : Error) (mv : Option Nat) :
    rangeOf (store s p x) mv = rangeOf s mv := rfl

theorem mergeSwitch_store {s : State} {pe : Nat} {e : Error} (o : Error)
    (hp : s.errs[pe]? = some e) : mergeSwitch s pe e o = store s pe (switched e o) := by
  have hs : store s pe e = s := by
    cases s
    simp only [store] at hp ⊢
    rw [list_set_same hp]
  unfold mergeSwitch switched
  split_ifs <;> simp [hs]

theorem switched_same (e : Error) : switched e e = e := by
  unfold switched
  split_ifs <;> simp_all

theorem switched_keeps_map (e o : Error) : (switched e o).MetaValues = e.MetaValues := by
  unfold switched
  split_ifs <;> rfl

theorem switched_keeps_detail (e o : Error) : (switched e o).Detail = e.Detail := by
  unfold switched
  split_ifs <;> rfl

theorem mergeMeta_set (pe : Nat) (a : Nat) (kvs : List (Sigma fun _ : String => Value)) :
    ∀ (s : State) (e : Error) (m : MetaMap), s.errs[pe]? = some e → e.MetaValues = some a →
      s.maps[a]? = some m →
      mergeMeta s pe kvs = .ok ⟨s.errs, s.maps.set a (insertAll m kvs)⟩ := by
  induction kvs with
  | nil =>
    intro s e m hp ha hm
    simp [mergeMeta, insertAll, list_set_same hm]
  | cons kv rest ih =>
    intro s e m hp ha hm
    simp only [mergeMeta, mapAssign, hp, ha, hm]
    rw [ih ⟨s.errs, s.maps.set a (m.insert kv.1 kv.2)⟩ e (m.insert kv.1 kv.2) hp ha
      (list_get_set _ hm)]
    simp [List.set_set, insertAll]

theorem mergeBody_fused {s : State} {pe po : Nat} {e o : Error}
    (he : s.errs[pe]? = some e) (ho : s.errs[po]? = some o) :
    mergeBody s pe po
      = match mergeMeta (store s pe (fused e o)) pe (rangeOf s o.MetaValues) with
        | .error x => .error x
        | .ok s5 => .ok (.ptr pe, s5) := by
  obtain ⟨hlt, _⟩ := List.getElem?_eq_some_iff.mp he
  unfold mergeBody
  simp only [load_errs he, load_errs ho, mergeSwitch_store o he]
  by_cases hpp : pe = po
  · subst hpp
    have heo : e = o := by rw [he] at ho; exact Option.some.inj ho
    subst heo
    have hl : pe < (store s pe (switched e e)).errs.length := by
      rw [store_errs_length]; exact hlt
    simp only [load_store_same _ hlt, load_store_same _ hl, store_store, switched_same,
      rangeOf_store, fused]
  · have hl : pe < (store s pe (switched e o)).errs.length := by
      rw [store_errs_length]; exact hlt
    simp only [load_store_same _ hlt, load_store_ne _ hpp, load_errs ho, store_store,
      switched_keeps_detail, rangeOf_store, fused]

/-- A merge of two `*Error` values into a record whose map is set: the record at `pe` holds
the fused fields, its map object has received the entries of the map of `o`, and nothing
else has changed. -/
theorem MergeErrors_ptr_set {s : State} {pe po : Nat} {e o : Error} {a : Nat} {m : MetaMap}
    (he : s.errs[pe]? = some e) (ho : s.errs[po]? = some o)
    (ha : e.MetaValues = some a) (hm : s.maps[a]? = some m) :
    MergeErrors s (.ptr pe) (.ptr po)
      = .ok (.ptr pe, ⟨s.errs.set pe (fused e o),
          s.maps.set a (insertAll m (rangeOf s o.MetaValues))⟩) := by
  have hb : MergeErrors s (.ptr pe) (.ptr po) = mergeBody s pe po := by
    simp [MergeErrors, asError]
  have h4 : (store s pe (fused e o)).errs[pe]? = some (fused e o) := list_get_set _ he
  have ha4 : (fused e o).MetaValues = some a := by
    simp [fused, switched_keeps_map, ha]
  rw [hb, mergeBody_fused he ho, mergeMeta_set pe a _ _ _ m h4 ha4 hm]
  rfl


theorem resultOf_MergeErrors_ptr_set {s : State} {pe po : Nat} {e o : Error} {a : Nat}
    {m : MetaMap} (he : s.errs[pe]? = some e) (ho : s.errs[po]? = some o)
    (ha : e.MetaValues = some a) (hm : s.maps[a]? = some m) :
    resultOf (MergeErrors s (.ptr pe) (.ptr po))
      = some ⟨(fused e o).Code, (fused e o).Status, (fused e o).Detail,
          some (insertAll m (rangeOf s o.MetaValues))⟩ := by
  have ha4 : (fused e o).MetaValues = some a := by
    simp [fused, switched_keeps_map, ha]
  rw [MergeErrors_ptr_set he ho ha hm]
  simp only [resultOf, view, list_get_set _ he, mapOf, ha4, list_get_set _ hm]

theorem rangeOf_set_ne (s : State) (errs : List Error) (a : Nat) (m : MetaMap)
    (mv : Option Nat) (hne : mv ≠ some a) :
    rangeOf ⟨errs, s.maps.set a m⟩ mv = rangeOf s mv := by
  cases mv with
  | none => rfl
  | some b =>
    have hab : a ≠ b := fun h => hne (by rw [h])
    simp [rangeOf, mapOf, List.getElem?_set_ne hab]

theorem rangeOf_nodupKeys (s : State) (mv : Option Nat) : (rangeOf s mv).NodupKeys := by
  unfold rangeOf
  cases mapOf s mv with
  | none => exact List.nodupKeys_nil
  | some m => exact m.nodupKeys

theorem fused_assoc_status_code (a b c : Error) :
    (fused (fused a b) c).Status = (fused a (fused b c)).Status ∧
      (fused (fused a b) c).Code = (fused a (fused b c)).Code := by
  by_cases ha : a.Status = 500 <;> by_cases hb : b.Status = 500 <;>
    by_cases hc : c.Status = 500 <;>
    by_cases hab : a.Status = b.Status <;> by_cases hab2 : a.Code = b.Code <;>
    by_cases hbc : b.Status = c.Status <;> by_cases hbc2 : b.Code = c.Code <;>
    simp [fused, switched, ha, hb, hc, hab, hab2, hbc, hbc2] <;>
    (try split_ifs) <;> simp_all

theorem fused_assoc_detail (a b c : Error) :
    (fused (fused a b) c).Detail = (fused a (fused b c)).Detail := by
  simp [fused, switched_keeps_detail, String.append_assoc]

theorem lookup_entries (m : MetaMap) (k : String) : List.dlookup k m.entries = m.lookup k := rfl

/-- The metadata of the two groupings, key by key: the entries of `c` win, then those of `b`,
then those of `a`, whether or not `a` and `b` hold the same map object (`x` is what the map
object of `a` holds when the outer merge of the right grouping starts). -/
theorem lookup_assoc (ma mb x : MetaMap) (kc : List (Sigma fun _ : String => Value))
    (hc : kc.NodupKeys) (hx : x = ma ∨ (ma = mb ∧ x = insertAll mb kc)) (k : String) :
    (insertAll (insertAll ma mb.entries) kc).lookup k
      = (insertAll x (insertAll mb kc).entries).lookup k := by
  rw [lookup_insertAll k kc _ hc, lookup_insertAll k mb.entries ma mb.nodupKeys,
    lookup_insertAll k (insertAll mb kc).entries x (insertAll mb kc).nodupKeys,
    lookup_entries, lookup_entries, lookup_insertAll k kc mb hc]
  rcases hx with hx | ⟨h1, hx⟩
  · subst hx
    cases List.dlookup k kc <;> cases mb.lookup k <;> rfl
  · subst h1 hx
    rw [lookup_insertAll k kc _ hc]
    cases List.dlookup k kc <;> cases ma.lookup k <;> rfl

/-- C20 (as stated) fails in three ways, each with all metadata maps initialised.
First, when `c` is the same error as `a`: with `A` of detail "x" and `B` of detail "y",
`MergeErrors(MergeErrors(A, B), A)` has detail "x; y; x; y" while
`MergeErrors(A, MergeErrors(B, A))` has detail "x; y; x".  Second, when `b` is the same
error as `a`: with `C` of detail "z", `MergeErrors(MergeErrors(A, A), C)` has detail
"x; x; z" while `MergeErrors(A, MergeErrors(A, C))` has detail "x; z; x; z".  Third, when
`a` and `c` are different errors holding the same map object: with that map being `k: 1`
and the map of `b` being `k: 2`, the left grouping ends with `k: 2` and the right grouping
with `k: 1`. -/
theorem MergeErrors_assoc_counterexample :
    (resultOf (mergeLeft
        ⟨[⟨"bad_request", 400, "x", some 0⟩, ⟨"bad_request", 400, "y", some 1⟩], [∅, ∅]⟩
        (.ptr 0) (.ptr 1) (.ptr 0))
      = some ⟨"bad_request", 400, "x; y; x; y", some ∅⟩ ∧
    resultOf (mergeRight
        ⟨[⟨"bad_request", 400, "x", some 0⟩, ⟨"bad_request", 400, "y", some 1⟩], [∅, ∅]⟩
        (.ptr 0) (.ptr 1) (.ptr 0))
      = some ⟨"bad_request", 400, "x; y; x", some ∅⟩) ∧
    (resultOf (mergeLeft
        ⟨[⟨"bad_request", 400, "x", some 0⟩, ⟨"bad_request", 400, "z", some 1⟩], [∅, ∅]⟩
        (.ptr 0) (.ptr 0) (.ptr 1))
      = some ⟨"bad_request", 400, "x; x; z", some ∅⟩ ∧
    resultOf (mergeRight
        ⟨[⟨"bad_request", 400, "x", some 0⟩, ⟨"bad_request", 400, "z", some 1⟩], [∅, ∅]⟩
        (.ptr 0) (.ptr 0) (.ptr 1))
      = some ⟨"bad_request", 400, "x; z; x; z", some ∅⟩) ∧
    (resultOf (mergeLeft
        ⟨[⟨"bad_request", 400, "x", some 0⟩, ⟨"bad_request", 400, "y", some 1⟩,
            ⟨"bad_request", 400, "z", some 0⟩],
          [AList.insert "k" (.int 1) ∅, AList.insert "k" (.int 2) ∅]⟩
        (.ptr 0) (.ptr 1) (.ptr 2))
      = some ⟨"bad_request", 400, "x; y; z", some (AList.insert "k" (.int 2) ∅)⟩ ∧
    resultOf (mergeRight
        ⟨[⟨"bad_request", 400, "x", some 0⟩, ⟨"bad_request", 400, "y", some 1⟩,
            ⟨"bad_request", 400, "z", some 0⟩],
          [AList.insert "k" (.int 1) ∅, AList.insert "k" (.int 2) ∅]⟩
        (.ptr 0) (.ptr 1) (.ptr 2))
      = some ⟨"bad_request", 400, "x; y; z", some (AList.insert "k" (.int 1) ∅)⟩) ∧
    ¬ (∀ (s : State) (pa pb pc : Nat) (ea eb ec : Error) (ka kb kc : Nat) (ma mb mc : MetaMap),
        s.errs[pa]? = some ea → s.errs[pb]? = some eb → s.errs[pc]? = some ec →
        ea.MetaValues = some ka → s.maps[ka]? = some ma →
        eb.MetaValues = some kb → s.maps[kb]? = some mb →
        ec.MetaValues = some kc → s.maps[kc]? = some mc →
        ∃ l r, resultOf (mergeLeft s (.ptr pa) (.ptr pb) (.ptr pc)) = some l ∧
          resultOf (mergeRight s (.ptr pa) (.ptr pb) (.ptr pc)) = some r ∧
          l.Status = r.Status ∧ l.Code = r.Code ∧ l.Detail = r.Detail ∧
          ∀ k, metaGet l.MetaValues k = metaGet r.MetaValues k) := by
  have hl : resultOf (mergeLeft
      ⟨[⟨"bad_request", 400, "x", some 0⟩, ⟨"bad_request", 400, "y", some 1⟩,
          ⟨"bad_request", 400, "z", some 0⟩],
        [AList.insert "k" (.int 1) ∅, AList.insert "k" (.int 2) ∅]⟩
      (.ptr 0) (.ptr 1) (.ptr 2))
      = some ⟨"bad_request", 400, "x; y; z", some (AList.insert "k" (.int 2) ∅)⟩ := rfl
  have hr : resultOf (mergeRight
      ⟨[⟨"bad_request", 400, "x", some 0⟩, ⟨"bad_request", 400, "y", some 1⟩,
          ⟨"bad_request", 400, "z", some 0⟩],
        [AList.insert "k" (.int 1) ∅, AList.insert "k" (.int 2) ∅]⟩
      (.ptr 0) (.ptr 1) (.ptr 2))
      = some ⟨"bad_request", 400, "x; y; z", some (AList.insert "k" (.int 1) ∅)⟩ := rfl
  refine ⟨⟨rfl, rfl⟩, ⟨rfl, rfl⟩, ⟨hl, hr⟩, ?_⟩
  intro hall
  obtain ⟨l, r, h1, h2, _, _, _, hk⟩ := hall
    ⟨[⟨"bad_request", 400, "x", some 0⟩, ⟨"bad_request", 400, "y", some 1⟩,
        ⟨"bad_request", 400, "z", some 0⟩],
      [AList.insert "k" (.int 1) ∅, AList.insert "k" (.int 2) ∅]⟩
    0 1 2 ⟨"bad_request", 400, "x", some 0⟩ ⟨"bad_request", 400, "y", some 1⟩
    ⟨"bad_request", 400, "z", some 0⟩ 0 1 0
    (AList.insert "k" (.int 1) ∅) (AList.insert "k" (.int 2) ∅) (AList.insert "k" (.int 1) ∅)
    rfl rfl rfl rfl rfl rfl rfl rfl rfl
  rw [hl] at h1
  rw [hr] at h2
  have hk2 := hk "k"
  rw [← Option.some.inj h1, ← Option.some.inj h2] at hk2
  exact absurd hk2 (by decide)

/-- C20 (amended): for non-nil `Error` values `a`, `b`, `c` where `a` is neither `b` nor
`c`, the metadata maps of `a` and `b` are set and `c` does not hold the map object of `a`,
`MergeErrors(MergeErrors(a, b), c)` and `MergeErrors(a, MergeErrors(b, c))`, each evaluated
from the same initial state, both return an error, and the two have the same status, code
and detail and the same metadata value under every key.  The records may share map objects
in any other way: `a` with `b`, or `b` with `c`. -/
theorem MergeErrors_assoc (s : State) (pa pb pc : Nat) (ea eb ec : Error) (ka kb : Nat)
    (ma mb : MetaMap)
    (ha : s.errs[pa]? = some ea) (hb : s.errs[pb]? = some eb) (hc : s.errs[pc]? = some ec)
    (hab : pa ≠ pb) (hac : pa ≠ pc)
    (hka : ea.MetaValues = some ka) (hma : s.maps[ka]? = some ma)
    (hkb : eb.MetaValues = some kb) (hmb : s.maps[kb]? = some mb)
    (hkc : ec.MetaValues ≠ some ka) :
    ∃ l r, resultOf (mergeLeft s (.ptr pa) (.ptr pb) (.ptr pc)) = some l ∧
      resultOf (mergeRight s (.ptr pa) (.ptr pb) (.ptr pc)) = some r ∧
      l.Status = r.Status ∧ l.Code = r.Code ∧ l.Detail = r.Detail ∧
      ∀ k, metaGet l.MetaValues k = metaGet r.MetaValues k := by
  have hEb : rangeOf s eb.MetaValues = mb.entries := by
    simp [rangeOf, mapOf, hkb, hmb]
  have hfa : (fused ea eb).MetaValues = some ka := by
    simp [fused, switched_keeps_map, hka]
  have hfb : (fused eb ec).MetaValues = some kb := by
    simp [fused, switched_keeps_map, hkb]
  -- left grouping
  have hL : resultOf (mergeLeft s (.ptr pa) (.ptr pb) (.ptr pc))
      = some ⟨(fused (fused ea eb) ec).Code, (fused (fused ea eb) ec).Status,
          (fused (fused ea eb) ec).Detail,
          some (insertAll (insertAll ma mb.entries) (rangeOf s ec.MetaValues))⟩ := by
    have ha1 : (s.errs.set pa (fused ea eb))[pa]? = some (fused ea eb) := list_get_set _ ha
    have hc1 : (s.errs.set pa (fused ea eb))[pc]? = some ec := by
      rw [List.getElem?_set_ne hac]; exact hc
    have hm1 : (s.maps.set ka (insertAll ma mb.entries))[ka]?
        = some (insertAll ma mb.entries) := list_get_set _ hma
    simp only [mergeLeft, MergeErrors_ptr_set ha hb hka hma, hEb]
    have hres : resultOf (MergeErrors
        ⟨s.errs.set pa (fused ea eb), s.maps.set ka (insertAll ma mb.entries)⟩
        (.ptr pa) (.ptr pc)) = _ := resultOf_MergeErrors_ptr_set ha1 hc1 hfa hm1
    rw [hres, rangeOf_set_ne s _ ka _ _ hkc]
  -- right grouping
  have hx : ∃ x, (s.maps.set kb (insertAll mb (rangeOf s ec.MetaValues)))[ka]? = some x ∧
      (x = ma ∨ (ma = mb ∧ x = insertAll mb (rangeOf s ec.MetaValues))) := by
    by_cases hk : ka = kb
    · subst hk
      have hmm : ma = mb := by rw [hma] at hmb; exact Option.some.inj hmb
      exact ⟨_, list_get_set _ hmb, Or.inr ⟨hmm, rfl⟩⟩
    · refine ⟨ma, ?_, Or.inl rfl⟩
      rw [List.getElem?_set_ne (Ne.symm hk)]; exact hma
  obtain ⟨x, hxm, hxc⟩ := hx
  have hR : resultOf (mergeRight s (.ptr pa) (.ptr pb) (.ptr pc))
      = some ⟨(fused ea (fused eb ec)).Code, (fused ea (fused eb ec)).Status,
          (fused ea (fused eb ec)).Detail,
          some (insertAll x (insertAll mb (rangeOf s ec.MetaValues)).entries)⟩ := by
    have ha2 : (s.errs.set pb (fused eb ec))[pa]? = some ea := by
      rw [List.getElem?_set_ne (Ne.symm hab)]; exact ha
    have hb2 : (s.errs.set pb (fused eb ec))[pb]? = some (fused eb ec) := list_get_set _ hb
    have hr2 : rangeOf ⟨s.errs.set pb (fused eb ec),
        s.maps.set kb (insertAll mb (rangeOf s ec.MetaValues))⟩ (fused eb ec).MetaValues
        = (insertAll mb (rangeOf s ec.MetaValues)).entries := by
      simp [rangeOf, mapOf, hfb, list_get_set _ hmb]
    simp only [mergeRight, MergeErrors_ptr_set hb hc hkb hmb]
    have hres : resultOf (MergeErrors
        ⟨s.errs.set pb (fused eb ec), s.maps.set kb (insertAll mb (rangeOf s ec.MetaValues))⟩
        (.ptr pa) (.ptr pb)) = _ := resultOf_MergeErrors_ptr_set ha2 hb2 hka hxm
    rw [hres, hr2]
  refine ⟨_, _, hL, hR, (fused_assoc_status_code ea eb ec).1,
    (fused_assoc_status_code ea eb ec).2, fused_assoc_detail ea eb ec, ?_⟩
  intro k
  exact lookup_assoc ma mb x _ (rangeOf_nodupKeys s _) hxc k


theorem MergeErrors_assoc_witness :
    ∃ l r,
      resultOf (mergeLeft
          ⟨[⟨"not_found", 404, "x", some 0⟩, ⟨"not_found", 404, "y", some 0⟩,
              ⟨"internal", 500, "z", some 1⟩],
            [AList.insert "k" (.int 1) ∅, AList.insert "k" (.int 3) ∅]⟩
          (.ptr 0) (.ptr 1) (.ptr 2)) = some l ∧
      resultOf (mergeRight
          ⟨[⟨"not_found", 404, "x", some 0⟩, ⟨"not_found", 404, "y", some 0⟩,
              ⟨"internal", 500, "z", some 1⟩],
            [AList.insert "k" (.int 1) ∅, AList.insert "k" (.int 3) ∅]⟩
          (.ptr 0) (.ptr 1) (.ptr 2)) = some r ∧
      l.Status = r.Status ∧ l.Code = r.Code ∧ l.Detail = r.Detail ∧
      ∀ k, metaGet l.MetaValues k = metaGet r.MetaValues k :=
  MergeErrors_assoc
    ⟨[⟨"not_found", 404, "x", some 0⟩, ⟨"not_found", 404, "y", some 0⟩,
        ⟨"internal", 500, "z", some 1⟩],
      [AList.insert "k" (.int 1) ∅, AList.insert "k" (.int 3) ∅]⟩
    0 1 2 ⟨"not_found", 404, "x", some 0⟩ ⟨"not_found", 404, "y", some 0⟩
    ⟨"internal", 500, "z", some 1⟩ 0 0
    (AList.insert "k" (.int 1) ∅) (AList.insert "k" (.int 1) ∅)
    rfl rfl rfl (by decide) (by decide) rfl rfl rfl rfl (by decide)

end Goa.Shared


namespace Goa

/-! ## Nil arguments, absorption of internal errors, update in place -/

theorem mergeBody_not_nil {h : Heap} {pe po : Nat} {h9 : Heap} :
    mergeBody h pe po ≠ .ok (.nil, h9) := by
  intro hc
  unfold mergeBody at hc
  split at hc
  · cases hc
  · cases hc
  · dsimp only at hc
    split at hc
    · cases hc
    · cases hc
    · split at hc
      · cases hc
      · split at hc
        · cases hc
        · cases hc

/-- C22: `MergeErrors` returns nil exactly when both arguments are nil; `MergeErrors(a, nil)`
returns `a` converted to `Error`: the same pointer with the heap untouched for a `*Error`
(status, code, detail and metadata as they were, nothing appended to the detail), a new
500 "internal_error" record carrying `a.Error()` otherwise. -/
theorem MergeErrors_nil_cases (h : Heap) (a b : GoError) (p : Nat) (msg : String) :
    ((∃ h9, MergeErrors h a b = .ok (.nil, h9)) ↔ a = .nil ∧ b = .nil) ∧
    MergeErrors h .nil .nil = .ok (.nil, h) ∧
    MergeErrors h (.ptr p) .nil = .ok (.ptr p, h) ∧
    MergeErrors h (.other msg) .nil
      = .ok (.ptr h.length, h ++ [⟨"internal_error", 500, msg, none⟩]) ∧
    resultOf (MergeErrors h a .nil) = converted h a := by
  refine ⟨?_, rfl, rfl, rfl, ?_⟩
  · constructor
    · rintro ⟨h9, hr⟩
      cases a <;> cases b <;> simp [MergeErrors, asError, alloc] at hr ⊢ <;>
        exact absurd hr mergeBody_not_nil
    · rintro ⟨rfl, rfl⟩
      exact ⟨h, rfl⟩
  · cases a with
    | nil => rfl
    | ptr q => rfl
    | other m => rfl

theorem accumulate_merged (rest : List GoError) :
    ∀ (es : List Error) (h : Heap) (pa : Nat) (ea : Error), h[pa]? = some ea →
      List.Forall₂ (fun x e => x ≠ .ptr pa ∧ converted h x = some e) rest es →
      (ea.MetaValues ≠ none ∨ ∀ e ∈ es, rangeOf e.MetaValues = []) →
      resultOf (accumulate h (.ptr pa) rest) = some (es.foldl merged ea) := by
  induction rest with
  | nil =>
    intro es h pa ea hpa hf _
    cases hf
    simpa [accumulate, resultOf] using hpa
  | cons x rest ih =>
    intro es h pa ea hpa hf hm
    cases hf with
    | cons hxe hrest =>
      rename_i e es2
      have hnw : ¬ nilMapWrite ea e := by
        apply not_nilMapWrite_of
        rcases hm with hm | hm
        · exact Or.inl hm
        · exact Or.inr (hm e (List.mem_cons_self _ _))
      obtain ⟨h9, hr, hg, hfr⟩ := MergeErrors_ptr_ok hpa hxe.2 hnw
      have hf9 : List.Forall₂ (fun y e2 => y ≠ .ptr pa ∧ converted h9 y = some e2) rest es2 :=
        List.Forall₂.imp (fun y e2 hy => ⟨hy.1, converted_frame hy.1 hy.2 hfr⟩) hrest
      have hm9 : (merged ea e).MetaValues ≠ none ∨ ∀ e2 ∈ es2, rangeOf e2.MetaValues = [] := by
        rcases hm with hm | hm
        · left
          cases hmv : ea.MetaValues with
          | none => exact absurd hmv hm
          | some m => simp [merged, hmv]
        · right
          intro e2 he2
          exact hm e2 (List.mem_cons_of_mem _ he2)
      have hres := ih es2 h9 pa (merged ea e) hg hf9 hm9
      simpa [accumulate, hr] using hres

/-- The accumulation of a list from nil, as a value: the first error merged with the later
ones from left to right, when the first error is not listed again and no merge writes into
a nil map. -/
theorem accumulate_from_nil {h : Heap} {x : GoError} {rest : List GoError}
    {e : Error} {es : List Error}
    (hx : converted h x = some e)
    (hrest : List.Forall₂ (fun y e2 => converted h y = some e2) rest es)
    (hfirst : ∀ p, x = .ptr p → GoError.ptr p ∉ rest)
    (hm : e.MetaValues ≠ none ∨ ∀ e2 ∈ es, rangeOf e2.MetaValues = []) :
    resultOf (accumulate h .nil (x :: rest)) = some (es.foldl merged e) := by
  obtain ⟨pe, h1, e1, g1, ⟨ext, x1⟩, hwho⟩ := asError_spec hx
  have hstep : MergeErrors h .nil x = .ok (.ptr pe, h1) := by
    cases x with
    | nil => exact absurd rfl (converted_ne_nil hx)
    | ptr p => simp only [MergeErrors, e1]
    | other msg => simp only [MergeErrors, e1]
  have hf1 : List.Forall₂ (fun y e2 => y ≠ .ptr pe ∧ converted h1 y = some e2) rest es := by
    refine forall2_of_mem hrest ?_
    intro y e2 hy hc
    refine ⟨?_, by rw [x1]; exact converted_append ext hc⟩
    rintro rfl
    rcases hwho with hw | ⟨_, hw⟩
    · exact hfirst pe hw hy
    · subst hw
      simp [converted, asError] at hc
  have hres := accumulate_merged rest es h1 pe e g1 hf1 hm
  simpa [accumulate, hstep] using hres

theorem merged_status_500_iff (e o : Error) :
    (merged e o).Status = 500 ↔ e.Status = 500 ∨ o.Status = 500 := by
  by_cases he : e.Status = 500 <;> by_cases ho : o.Status = 500 <;>
    by_cases hs : e.Status = o.Status <;> by_cases hc : e.Code = o.Code <;>
    simp [merged, switched, he, ho, hs, hc]

theorem merged_of_status_500 (e o : Error) (he : e.Status = 500) :
    (merged e o).Status = e.Status ∧ (merged e o).Code = e.Code := by
  simp [merged, switched, he]

theorem foldl_merged_status_500_iff (es : List Error) :
    ∀ (e : Error), (es.foldl merged e).Status = 500 ↔
      e.Status = 500 ∨ ∃ e2 ∈ es, e2.Status = 500 := by
  induction es with
  | nil => intro e; simp
  | cons o rest ih =>
    intro e
    rw [List.foldl_cons, ih (merged e o), merged_status_500_iff]
    simp only [List.mem_cons, exists_eq_or_imp, or_assoc]

/-- C21 (failing input): the list of `a`, as built by `ErrBadRequest("x")` with its
`MetaValues` nil, and `b`, a 500 "internal" error carrying one metadata entry.  One listed
error has status 500, yet the accumulation has no status: the second merge panics on the
assignment into the nil map of the accumulator. -/
theorem accumulate_internal_nil_map_panics :
    accumulate
      [⟨"bad_request", 400, "x", none⟩,
       ⟨"internal", 500, "boom", some (AList.insert "k" (.str "v") ∅)⟩]
      .nil [.ptr 0, .ptr 1] = .error .nilMapAssign := by
  rfl

/-- C23 (failing input): two distinct errors, `a` as built by `ErrNotFound("x")` with its
`MetaValues` nil and `b` carrying one metadata entry.  `MergeErrors(a, b)` does not return
`a`: after writing status, code and detail it panics on the assignment into the nil map. -/
theorem MergeErrors_in_place_nil_map_panics :
    MergeErrors
      [⟨"not_found", 404, "x", none⟩,
       ⟨"not_found", 404, "y", some (AList.insert "id" (.int 7) ∅)⟩]
      (.ptr 0) (.ptr 1) = .error .nilMapAssign := by
  rfl

end Goa

namespace Goa

/-! ## `Meta` on an initialised map -/

theorem mapAssign_some {h : Heap} {p : Nat} {e : Error} {m : MetaMap} (n : String) (v : Value)
    (hp : h[p]? = some e) (hm : e.MetaValues = some m) :
    mapAssign h p n v = .ok (h.set p { e with MetaValues := some (m.insert n v) }) := by
  simp [mapAssign, hp, hm]

theorem metaLoop_some (p : Nat) :
    ∀ (kvs : List Value) (h : Heap) (e : Error) (m : MetaMap), h[p]? = some e →
      e.MetaValues = some m →
      metaLoop h p kvs
        = .ok (h.set p { e with MetaValues := some (insertAll m (metaWrites kvs)) })
  | [], h, e, m, hp, hm => by
    have he : ({ e with MetaValues := some (insertAll m (metaWrites [])) } : Error) = e := by
      cases e; simp_all [insertAll, metaWrites]
    simp [metaLoop, he, set_same_of_get hp]
  | [k], h, e, m, hp, hm => by
    simp [metaLoop, mapAssign_some _ _ hp hm, metaWrites, insertAll]
  | k :: v :: rest, h, e, m, hp, hm => by
    have h1 : (h.set p { e with MetaValues := some (m.insert (sprintV k) v) })[p]?
        = some { e with MetaValues := some (m.insert (sprintV k) v) } := get_set_same hp
    simp only [metaLoop, mapAssign_some _ _ hp hm]
    rw [metaLoop_some p rest _ _ (m.insert (sprintV k) v) h1 rfl]
    simp [List.set_set, metaWrites, insertAll]

theorem metaIndexed_eq (p : Nat) (keyvals : List Value) :
    ∀ (n i : Nat) (h : Heap), keyvals.length - i ≤ n →
      metaIndexed h p keyvals i = some (metaLoop h p (keyvals.drop i)) := by
  intro n
  induction n with
  | zero =>
    intro i h hn
    have hle : keyvals.length ≤ i := by omega
    rw [metaIndexed, if_neg (by omega), List.drop_eq_nil_of_le hle]
    rfl
  | succ n ih =>
    intro i h hn
    by_cases hi : i < keyvals.length
    · rw [metaIndexed, if_pos hi, List.getElem?_eq_getElem hi]
      by_cases hi1 : i + 1 < keyvals.length
      · have hd : keyvals.drop i = keyvals[i] :: keyvals[i + 1] :: keyvals.drop (i + 2) := by
          rw [List.drop_eq_getElem_cons hi, List.drop_eq_getElem_cons hi1]
        simp only [if_pos hi1, List.getElem?_eq_getElem hi1, hd, metaLoop]
        cases mapAssign h p (sprintV keyvals[i]) keyvals[i + 1] with
        | error x => rfl
        | ok h1 => exact ih (i + 2) h1 (by omega)
      · have hd : keyvals.drop i = [keyvals[i]] := by
          rw [List.drop_eq_getElem_cons hi, List.drop_eq_nil_of_le (by omega)]
        simp only [if_neg hi1, hd, metaLoop]
        cases mapAssign h p (sprintV keyvals[i]) (.str "MISSING") with
        | error x => rfl
        | ok h1 =>
          have h2 := ih (i + 2) h1 (by omega)
          rw [List.drop_eq_nil_of_le (by omega)] at h2
          simpa [metaLoop] using h2
    · rw [metaIndexed, if_neg hi, List.drop_eq_nil_of_le (by omega)]
      rfl

theorem lookup_insertAll_of_not_mem (k : String) (ws : List (Sigma fun _ : String => Value)) :
    ∀ (m : MetaMap), (∀ w ∈ ws, w.1 ≠ k) → (insertAll m ws).lookup k = m.lookup k := by
  induction ws with
  | nil => intro m _; rfl
  | cons w rest ih =>
    intro m hw
    have hstep : insertAll m (w :: rest) = insertAll (m.insert w.1 w.2) rest := rfl
    rw [hstep, ih _ (fun w2 h2 => hw w2 (List.mem_cons_of_mem _ h2))]
    exact AList.lookup_insert_ne (Ne.symm (hw w (List.mem_cons_self _ _)))

theorem lookup_insertAll_at (ws : List (Sigma fun _ : String => Value)) :
    ∀ (m : MetaMap) (i : Nat) (k : String) (v : Value), ws[i]? = some ⟨k, v⟩ →
      (∀ j w, i < j → ws[j]? = some w → w.1 ≠ k) →
      (insertAll m ws).lookup k = some v := by
  induction ws with
  | nil => intro m i k v hi; simp at hi
  | cons w rest ih =>
    intro m i k v hi hlater
    have hstep : insertAll m (w :: rest) = insertAll (m.insert w.1 w.2) rest := rfl
    rw [hstep]
    cases i with
    | zero =>
      simp at hi
      subst hi
      rw [lookup_insertAll_of_not_mem]
      · exact AList.lookup_insert m
      · intro w2 hw2
        obtain ⟨j, hj, hjw⟩ := List.getElem_of_mem hw2
        have hj2 : (⟨k, v⟩ :: rest : List (Sigma fun _ : String => Value))[j + 1]? = some w2 := by
          simp [List.getElem?_eq_getElem hj, hjw]
        exact hlater (j + 1) w2 (Nat.succ_pos j) hj2
    | succ i2 =>
      simp at hi
      apply ih _ i2 k v hi
      intro j w2 hj hjw
      exact hlater (j + 1) w2 (by omega) (by simpa using hjw)

theorem metaWrites_get :
    ∀ (kvs : List Value) (i : Nat),
      (metaWrites kvs)[i]?
        = match kvs[2 * i]?, kvs[2 * i + 1]? with
          | some k, some v => some ⟨sprintV k, v⟩
          | some k, none => some ⟨sprintV k, .str "MISSING"⟩
          | none, _ => none
  | [], i => by simp [metaWrites]
  | [k], 0 => by simp [metaWrites]
  | [k], i + 1 => by
    have h1 : ([k] : List Value)[2 * (i + 1)]? = none := by
      apply List.getElem?_eq_none; simp; omega
    simp [metaWrites, h1]
  | k :: v :: rest, 0 => by simp [metaWrites]
  | k :: v :: rest, i + 1 => by
    have e1 : 2 * (i + 1) = (2 * i + 1) + 1 := by omega
    have e2 : 2 * (i + 1) + 1 = (2 * i + 1 + 1) + 1 := by omega
    have h1 : (k :: v :: rest)[2 * (i + 1)]? = rest[2 * i]? := by
      rw [e1, List.getElem?_cons_succ, List.getElem?_cons_succ]
    have h2 : (k :: v :: rest)[2 * (i + 1) + 1]? = rest[2 * i + 1]? := by
      rw [e2, List.getElem?_cons_succ, List.getElem?_cons_succ]
    rw [h1, h2, ← metaWrites_get rest i]
    simp [metaWrites]

theorem metaWrites_key {kvs : List Value} {j : Nat} {w : Sigma fun _ : String => Value}
    (hw : (metaWrites kvs)[j]? = some w) : ∃ k2, kvs[2 * j]? = some k2 ∧ w.1 = sprintV k2 := by
  rw [metaWrites_get] at hw
  cases h0 : kvs[2 * j]? with
  | none => simp [h0] at hw
  | some k2 =>
    refine ⟨k2, rfl, ?_⟩
    cases h1 : kvs[2 * j + 1]? with
    | none =>
      simp only [h0, h1] at hw
      rw [← Option.some.inj hw]
    | some v2 =>
      simp only [h0, h1] at hw
      rw [← Option.some.inj hw]

theorem metaAfter_set {h : Heap} {p : Nat} {e : Error} (e2 : Error) (k : String)
    (hp : h[p]? = some e) :
    metaAfter (.ok (p, h.set p e2)) k = metaGet e2.MetaValues k := by
  simp [metaAfter, get_set_same hp]

/-- C24 (as stated) fails when a later key has the same text as an earlier one: on an
error with an empty metadata map, `Meta("a", 1, "a")` stores "a" with value 1 and then
stores it again as the unpaired last key, so "a" ends with the value "MISSING", not 1. -/
theorem Meta_repeated_key_counterexample :
    metaAfter (Error.Meta [⟨"bad_request", 400, "x", some ∅⟩] 0 [.str "a", .int 1, .str "a"])
        "a" = some (.str "MISSING") ∧
    metaAfter (Error.Meta [⟨"bad_request", 400, "x", some ∅⟩] 0 [.str "a", .int 1, .str "a"])
        "a" ≠ some (.int 1) := by
  have hv : metaAfter
      (Error.Meta [⟨"bad_request", 400, "x", some ∅⟩] 0 [.str "a", .int 1, .str "a"]) "a"
      = some (.str "MISSING") := by rfl
  refine ⟨hv, ?_⟩
  rw [hv]
  decide

/-- C24 (amended): for an `Error` with an initialised metadata map and an argument list of
odd length, `Meta` returns the receiver with only its metadata changed; the last argument,
rendered as text, is a key whose value is the string "MISSING"; every earlier argument at an
even position is a key whose value is the argument that follows it, unless a later key
(the last argument included) renders to the same text and so replaces it; and the loop with
its index kept never reads past the end of the argument list. -/
theorem Meta_odd_arguments (h : Heap) (p : Nat) (e : Error) (m : MetaMap)
    (keyvals : List Value)
    (hp : h[p]? = some e) (hm : e.MetaValues = some m) (hodd : keyvals.length % 2 = 1) :
    Error.Meta h p keyvals
      = .ok (p, h.set p { e with MetaValues := some (insertAll m (metaWrites keyvals)) }) ∧
    (∀ last, keyvals[keyvals.length - 1]? = some last →
      metaAfter (Error.Meta h p keyvals) (sprintV last) = some (.str "MISSING")) ∧
    (∀ i k v, keyvals[2 * i]? = some k → keyvals[2 * i + 1]? = some v →
      (∀ j k2, i < j → keyvals[2 * j]? = some k2 → sprintV k2 ≠ sprintV k) →
      metaAfter (Error.Meta h p keyvals) (sprintV k) = some v) ∧
    metaIndexed h p keyvals 0 = some (metaLoop h p keyvals) := by
  have hM : Error.Meta h p keyvals
      = .ok (p, h.set p { e with MetaValues := some (insertAll m (metaWrites keyvals)) }) := by
    simp only [Error.Meta, metaLoop_some p keyvals h e m hp hm]
  have hA : ∀ k, metaAfter (Error.Meta h p keyvals) k
      = (insertAll m (metaWrites keyvals)).lookup k := by
    intro k
    rw [hM, metaAfter_set _ k hp]
    rfl
  refine ⟨hM, ?_, ?_, ?_⟩
  · intro last hlast
    rw [hA]
    have hq : 2 * (keyvals.length / 2) = keyvals.length - 1 := by omega
    have hw : (metaWrites keyvals)[keyvals.length / 2]?
        = some ⟨sprintV last, .str "MISSING"⟩ := by
      have hnone : keyvals[2 * (keyvals.length / 2) + 1]? = none := by
        apply List.getElem?_eq_none; omega
      rw [metaWrites_get, hnone, hq, hlast]
    apply lookup_insertAll_at _ m _ _ _ hw
    intro j w hj hjw
    obtain ⟨k2, hk2, _⟩ := metaWrites_key hjw
    have hlt : 2 * j < keyvals.length := (List.getElem?_eq_some_iff.mp hk2).1
    omega
  · intro i k v hk hv hlater
    rw [hA]
    have hw : (metaWrites keyvals)[i]? = some ⟨sprintV k, v⟩ := by
      rw [metaWrites_get, hk, hv]
    apply lookup_insertAll_at _ m _ _ _ hw
    intro j w hj hjw
    obtain ⟨k2, hk2, hw1⟩ := metaWrites_key hjw
    rw [hw1]
    exact hlater j k2 hj hk2
  · have hd := metaIndexed_eq p keyvals keyvals.length 0 h (by omega)
    simpa using hd

theorem Meta_odd_arguments_witness :
    metaAfter (Error.Meta [⟨"bad_request", 400, "x", some ∅⟩] 0
        [.str "name", .str "id", .str "value"]) "value" = some (.str "MISSING") ∧
    metaAfter (Error.Meta [⟨"bad_request", 400, "x", some ∅⟩] 0
        [.str "name", .str "id", .str "value"]) "name" = some (.str "id") := by
  have hw := Meta_odd_arguments [⟨"bad_request", 400, "x", some ∅⟩] 0
    ⟨"bad_request", 400, "x", some ∅⟩ ∅ [.str "name", .str "id", .str "value"] rfl rfl rfl
  refine ⟨hw.2.1 (.str "value") rfl, hw.2.2.1 0 (.str "name") (.str "id") rfl rfl ?_⟩
  intro j k2 hj hk
  cases j with
  | zero => omega
  | succ j2 =>
    cases j2 with
    | zero =>
      simp at hk
      subst hk
      decide
    | succ j3 =>
      have hnone : ([.str "name", .str "id", .str "value"] : List Value)[2 * (j3 + 1 + 1)]?
          = none := by
        apply List.getElem?_eq_none
        simp
        omega
      rw [hnone] at hk
      cases hk

end Goa
